import Mathlib

/-!
Verification of the CanX CAN / CAN-FD diagnostic stack against its
natural-language specification.

The Python sources are shallowly embedded: frame payloads that the source
passes around as space-separated hex strings (produced by `HexArr2Str` /
`HexArr2StrArr` and parsed back by `Str2HexArr` / `int(x,16)`) are embedded
as lists of byte values (`List Nat`, elements < 256); the hex-string
conversions are embedded separately and proven to cancel, so the byte-level
pipeline is faithful.  Machine integers are `Nat` with explicit masking
where the source masks.  Blocking waits are embedded either as exhaustion
of an explicit buffer or with explicit arrival-time stamps; `time.sleep`
has no state effect and is dropped.  Fallible operations return `Option`.
-/

set_option maxRecDepth 4000

set_option autoImplicit false

/-! ## COMMON/Cast.py -/

/-- Hexadecimal digit characters used by Python's `hex()` (lower case)
and by `int(_, 16)` after `.upper()`. -/
def hexDigitChar (n : Nat) : Char :=
  if n < 10 then Char.ofNat (48 + n) else Char.ofNat (87 + n)

/-- Value of an upper-case hexadecimal digit, as `int(_, 16)` computes it;
`none` for a character that is not a hex digit (Python raises `ValueError`). -/
def hexDigitVal (c : Char) : Option Nat :=
  if 48 ≤ c.toNat ∧ c.toNat ≤ 57 then some (c.toNat - 48)
  else if 65 ≤ c.toNat ∧ c.toNat ≤ 70 then some (c.toNat - 65 + 10)
  else if 97 ≤ c.toNat ∧ c.toNat ≤ 102 then some (c.toNat - 97 + 10)
  else none

/-- Embedding of Python's `str(hex(val))[2:]` zero-padded to two digits, as
`HexArr2Str` / `HexArr2StrArr` produce for one byte, after `.upper()`.
For values above 255 the Python code would emit more than two digits; the
frame pipeline only ever passes byte values. -/
def byteToHexPair (b : Nat) : List Char :=
  [(hexDigitChar (b / 16 % 16)).toUpper, (hexDigitChar (b % 16)).toUpper]

/-- Cast.py `HexArr2StrArr`: byte list to list of two-character upper-case
hex strings (each string embedded as a `List Char`). -/
def HexArr2StrArr (msg : List Nat) : List (List Char) :=
  msg.map byteToHexPair

/-- Cast.py `HexArr2Str`: byte list to a single string of space-separated
upper-case hex pairs (with a trailing space, as in the source). -/
def HexArr2Str (msg : List Nat) : List Char :=
  msg.foldl (fun acc b => acc ++ byteToHexPair b ++ [' ']) []

/-- Parse a list of hex digits most-significant first, as `int(s, 16)`. -/
def parseHexDigits : List Char → Option Nat
  | [] => some 0
  | c :: rest =>
    match hexDigitVal c, parseHexDigits rest with
    | some v, some acc => some (v * 16 ^ rest.length + acc)
    | _, _ => none

/-- Group a character list into successive pairs (Cast.py `Split_by_num`
with `num = 2`); a trailing odd character forms a singleton group. -/
def splitPairs : List Char → List (List Char)
  | [] => []
  | [c] => [[c]]
  | c₁ :: c₂ :: rest => [c₁, c₂] :: splitPairs rest

/-- Cast.py `Str2HexArr`: remove spaces, upper-case, right-pad an odd-length
string with the digit `0`, then parse two characters per byte.  `none`
models the `ValueError` Python raises on a non-hex character. -/
def Str2HexArr (input_str : List Char) : Option (List Nat) :=
  let cleaned := (input_str.filter (fun c => c ≠ ' ')).map Char.toUpper
  let padded := if cleaned.length % 2 = 1 then cleaned ++ ['0'] else cleaned
  (splitPairs padded).mapM parseHexDigits

/-- Cast.py `calculateLength_dlc` `Data_size` table.  The CAN-FD standard
steps are 12, 16, 20, 24, 32, 48, 64; the source writes 36 where 32 is
expected. -/
def Data_size : List Nat := [12, 16, 20, 24, 36, 48, 64]

/-- Cast.py `calculateLength_dlc`: target frame length for CAN-FD.
Returns `none` when the Python loop falls through without returning
(impossible for `arr_len ≤ 64`). -/
def calculateLength_dlc (input_arr : List Nat) : Option Nat :=
  let arr_len := input_arr.length
  if 64 < arr_len then some 0xff
  else if arr_len ≤ 8 then some arr_len
  else Data_size.find? (fun d => arr_len ≤ d)

/-- Cast.py `add_padding`: extend a frame with copies of the fill byte up
to the computed DLC length.  The source receives the fill byte as a hex
string and parses it with `int(padding, 16)`; the embedding takes the
parsed value. -/
def add_padding (input_arr : List Nat) (padding : Nat) : Option (List Nat) :=
  (calculateLength_dlc input_arr).map
    (fun ds => input_arr ++ List.replicate (ds - input_arr.length) padding)

/-- The CAN-FD DLC steps named by the specification. -/
def specDlcSteps : List Nat := [8, 12, 16, 20, 24, 32, 48, 64]

/-- Python value carried by a signal write: either a number or a value on
which an ordered comparison raises (`TypeError`), e.g. a non-numeric
string. -/
inductive PyVal where
  | num (q : ℚ)
  | invalid
deriving DecidableEq, Repr

/-- Cast.py `trim`: clamp a numeric value between optional bounds. -/
def trim (value : ℚ) (min_val max_val : Option ℚ) : ℚ :=
  let v := match min_val with
    | some m => max m value
    | none => value
  match max_val with
  | some m => min v m
  | none => v

/-- Cast.py `trim` applied to an arbitrary Python value: a comparison with
a bound raises on a non-numeric value (`none`); with both bounds absent no
comparison happens and the value passes through untouched. -/
def trimPy (value : PyVal) (min_val max_val : Option ℚ) : Option PyVal :=
  match value with
  | .num q => some (.num (trim q min_val max_val))
  | .invalid =>
    match min_val, max_val with
    | none, none => some .invalid
    | _, _ => none

/-! ## E2E/crc.py -/

/-- One shift step of `crc16_canfd`'s inner loop, exactly as the source
computes it: the running value is not masked inside the loop, so bits
at positions 16 and above accumulate until the final mask. -/
def crc16_round (crc : Nat) : Nat :=
  if crc.testBit 15 then (crc <<< 1) ^^^ 0x1021 else crc <<< 1

/-- One byte of `crc16_canfd`: xor the byte into the top of the 16-bit
window, then eight shift steps. -/
def crc16_byte (crc byte : Nat) : Nat :=
  crc16_round^[8] (crc ^^^ (byte <<< 8))

/-- crc.py `crc16_canfd`: init 0xFFFF, polynomial 0x1021, final mask to
16 bits, final xor with 0 (`CRC_16_FINAL_XOR`). -/
def crc16_canfd (data : List Nat) : Nat :=
  ((data.foldl crc16_byte 0xFFFF) &&& 0xFFFF) ^^^ 0x0

/-- Specification CRC-16 step: the textbook MSB-first update for
polynomial 0x1021 with the running value kept within 16 bits. -/
def crc16_spec_round (crc : Nat) : Nat :=
  if crc.testBit 15 then ((crc <<< 1) ^^^ 0x1021) &&& 0xFFFF
  else (crc <<< 1) &&& 0xFFFF

/-- Specification CRC-16 byte update (MSB-first, 16-bit width). -/
def crc16_spec_byte (crc byte : Nat) : Nat :=
  crc16_spec_round^[8] ((crc ^^^ (byte <<< 8)) &&& 0xFFFF)

/-- Specification CRC-16 as the spec words it: polynomial 0x1021, initial
value 0xFFFF, MSB-first, no input or output reflection, no final xor,
16-bit width. -/
def crc16_spec (data : List Nat) : Nat :=
  data.foldl crc16_spec_byte 0xFFFF

/-- crc.py `_build_crc_payload`: drop the first two frame bytes and append
the two bytes of `suffix = (0xF800 + msg_id) & 0x0FFF`, low byte first.
`none` models the `ValueError` raised when fewer than two bytes are
given (a negative id cannot arise for `msg_id : Nat`). -/
def build_crc_payload (msg_id : Nat) (data_frame : List Nat) : Option (List Nat) :=
  if data_frame.length < 2 then none
  else
    let suffix := (0xF800 + msg_id) &&& 0x0FFF
    some (data_frame.drop 2 ++ [suffix &&& 0xFF, (suffix >>> 8) &&& 0xFF])

/-- crc.py `crc_calculate`. -/
def crc_calculate (msg_id : Nat) (data_frame : List Nat) : Option Nat :=
  (build_crc_payload msg_id data_frame).map crc16_canfd

/-! ## CANTP/Frame.py -/

/-- Frame.py `slice1stChunk`. -/
def slice1stChunk (arr : List Nat) (num : Nat) : List Nat × List Nat :=
  (arr.take num, arr.drop num)

/-- Frame.py `calculateLength`: parse the First Frame length field.
The source distinguishes the escape form only by `msg[1] == 0`; byte
accesses out of range (impossible on the 8-byte frames this is called on)
are embedded with default 0. -/
def calculateLength (msg : List Nat) : Nat × Nat :=
  if msg.getD 1 0 ≠ 0 then
    ((((msg.getD 0 0) &&& 0x0F) <<< 8) ||| msg.getD 1 0, 2)
  else
    ((msg.getD 2 0 <<< 24) ||| (msg.getD 3 0 <<< 16) |||
      (msg.getD 4 0 <<< 8) ||| msg.getD 5 0, 5)

/-- Python `math.ceil(a / b)` for integers with `b > 0`, via floor
division: `⌈a / b⌉ = -((-a) // b)`. -/
def ceilDivInt (a b : Int) : Int := -((-a).fdiv b)

/-- Frame.py `expectedFrames`: number of further frames expected after a
First Frame, the total length, and the bytes already carried by the FF. -/
def expectedFrames (msg : List Nat) (chunk_length : Nat) : Int × Nat × List Nat :=
  let (total_length, used_len) := calculateLength msg
  let data := msg.drop used_len
  (ceilDivInt ((total_length : Int) - data.length) ((chunk_length : Int) - 1),
    total_length, data)

/-- Frame.py `extractCF`: flow status, block size and STmin of a Flow
Control frame.  The source masks the status with 0x3 (not 0xF). -/
def extractCF (msg : List Nat) : Nat × Nat × Nat :=
  (msg.getD 0 0 &&& 0x3, msg.getD 1 0, msg.getD 2 0)

/-- Frame.py `NRC_check`: the source compares the first hex string with
`'7F'`; at byte level this is the first byte being 0x7F. -/
def NRC_check (req : List Nat) : Bool :=
  req.getD 0 0 == 0x7F

/-- Frame.py `increaseSN`: increment the sequence number, wrapping from
0xF to 0. -/
def increaseSN (SN : Nat) : Nat :=
  if SN < 0xf then SN + 1 else 0

/-- Frame.py `convertFF`: build the first emitted frame (Single Frame,
short First Frame or escape First Frame) and the remaining bytes.  The
source returns the frame as a hex string (`HexArr2Str`); the embedding
keeps the byte list, which the proven hex round trip identifies with it. -/
def convertFF (data : List Nat) (chunk_length : Nat) : List Nat × List Nat :=
  let data_len := data.length
  if data_len ≤ 0x7 then
    ([data_len] ++ data ++ List.replicate (0x7 - data_len) 0, [])
  else if data_len ≤ 0xFFF then
    let Byte_0 := 0x10 ||| ((data_len >>> 8) &&& 0xF)
    let Byte_1 := 0xFF &&& data_len
    slice1stChunk ([Byte_0, Byte_1] ++ data) chunk_length
  else if data_len ≤ 0xFFFFFFFF then
    slice1stChunk
      ([0x10, 0x00, 0xFF &&& (data_len >>> 24), 0xFF &&& (data_len >>> 16),
        0xFF &&& (data_len >>> 8), 0xFF &&& data_len] ++ data) chunk_length
  else ([], [])

/-- Frame.py `nextCF`: next Consecutive Frame and remaining bytes.  The
remainder is first zero-padded up to 7 bytes. -/
def nextCF (SN : Nat) (data : List Nat) (chunk_length : Nat) : List Nat × List Nat :=
  let padded := data ++ List.replicate (7 - data.length) 0
  slice1stChunk ([0x20 ||| SN] ++ padded) chunk_length

/-! ## CANTP/session.py

Frames delivered to a session's RX buffer arrive through the reader
callback as `HexArr2StrArr(message.data)`; the session parses bytes back
with `int(frame[i], 16)`.  Both conversions cancel (`str2HexArr_hexArr2Str`
below), so the buffer is embedded as a list of byte lists.  Waits on the
buffer are embedded by buffer exhaustion; the Flow-Control wait, whose
deadline behaviour the spec constrains, additionally carries explicit
arrival times. -/

/-- Flow status codes.  Modelled from the spec: the module
`CANTP/Description.py` is imported by the source but is not among the
source files; §3 of the specification fixes the codes as 0 = CTS,
1 = WAIT, 2 = OVFLW. -/
def FCFS_CTS : Nat := 0

/-- Modelled from the spec: WAIT flow status (see `FCFS_CTS`). -/
def FCFS_WAIT : Nat := 1

/-- Modelled from the spec: OVFLW flow status (see `FCFS_CTS`). -/
def FCFS_OVFLW : Nat := 2

/-- session.py `FlowControlSettings`. -/
structure FlowControlSettings where
  block_size : Nat := 0
  st_min : Nat := 0x14
  flow_status : Nat := 0
deriving DecidableEq, Repr

/-- session.py `FlowControlSettings.build_payload` with the default
`pci = 0x3`: the 8-byte Flow Control payload. -/
def build_payload (s : FlowControlSettings) : List Nat :=
  [((0x3 <<< 4) &&& 0xF0) ||| (s.flow_status &&& 0x0F),
    s.block_size &&& 0xFF, s.st_min &&& 0xFF, 0, 0, 0, 0, 0]

/-- session.py `CANTPSession._pci_type`. -/
def pci_type (frame : List Nat) : Nat :=
  frame.getD 0 0 >>> 4

/-- session.py `CANTPSession._is_transport_payload`. -/
def is_transport_payload (frame : List Nat) : Bool :=
  match frame with
  | [] => false
  | b :: _ => (b >>> 4 == 0x0) || (b >>> 4 == 0x1) || (b >>> 4 == 0x2)

/-- session.py `CANTPSession._is_consecutive_frame`. -/
def is_consecutive_frame (frame : List Nat) : Bool :=
  match frame with
  | [] => false
  | b :: _ => b >>> 4 == 0x2

/-- session.py `CANTPSession._is_flow_control_frame`. -/
def is_flow_control_frame (frame : List Nat) : Bool :=
  match frame with
  | [] => false
  | b :: _ => b >>> 4 == 0x3

/-- session.py `CANTPSession._interpret_st_min`: STmin in seconds.
0x00–0x7F are milliseconds, 0xF1–0xF9 are 100–900 microseconds, anything
else is 0. -/
def interpret_st_min (value : Nat) : ℚ :=
  if value ≤ 0x7F then (value : ℚ) / 1000
  else if 0xF1 ≤ value ∧ value ≤ 0xF9 then ((value : ℚ) - 0xF0) / 10000
  else 0

/-- session.py `CANTPSession._pop_matching` restricted to the frames
already in the buffer: remove and return the first frame satisfying the
predicate, keeping every other frame in order; `none` models the timeout
when no matching frame ever arrives. -/
def popMatching (pred : List Nat → Bool) : List (List Nat) → Option (List Nat × List (List Nat))
  | [] => none
  | f :: rest =>
    if pred f then some (f, rest)
    else (popMatching pred rest).map (fun p => (p.1, f :: p.2))

/-- session.py `CANTPSession.receive`, Consecutive-Frame accumulation
loop: pop CF frames, appending `cf[1:]`, until the accumulated data
reaches the total length.  `none` models the timeout when no further CF
arrives.  Structural fuel bounds the iteration count; each iteration
removes one buffered frame, so `buffer.length` fuel suffices. -/
def receiveCFLoop (total_length : Nat) : Nat → List (List Nat) → List Nat → Option (List Nat)
  | fuel, buffer, data =>
    if total_length ≤ data.length then some data
    else
      match fuel with
      | 0 => none
      | fuel + 1 =>
        match popMatching is_consecutive_frame buffer with
        | none => none
        | some (cf, rest) => receiveCFLoop total_length fuel rest (data ++ cf.drop 1)

/-- session.py `CANTPSession.receive` over the frames a loopback delivers
to the session's RX buffer.  Returns the received PDU (empty on timeout
or on an unexpected first frame) together with the Flow Control frames
the session emits to the ECU; the bus write of the FC frame is assumed to
succeed. -/
def sessionReceive (chunk_length : Nat) (rx_flow : FlowControlSettings)
    (buffer : List (List Nat)) : List Nat × List (List Nat) :=
  match popMatching is_transport_payload buffer with
  | none => ([], [])
  | some (first_frame, rest) =>
    let pci := pci_type first_frame
    if pci == 0x0 then
      let payload_length := first_frame.getD 0 0 &&& 0x0F
      ((first_frame.drop 1).take payload_length, [])
    else if pci != 0x1 then ([], [])
    else
      let (_, total_length, data) := expectedFrames first_frame chunk_length
      let fc := build_payload rx_flow
      match receiveCFLoop total_length rest.length rest data with
      | none => ([], [fc])
      | some full => (full.take total_length, [fc])

/-- One frame arriving in the session RX buffer during a Flow-Control
wait, stamped with its arrival time in milliseconds measured from the
start of that wait. -/
abbrev TimedFrame := Nat × List Nat

/-- Timed variant of `_pop_matching` for the Flow-Control wait: the first
Flow Control frame, in arrival order, whose arrival falls strictly before
the absolute deadline is removed and returned; every other frame stays in
the buffer.  `none` models the timeout. -/
def popFCTimed (deadline : Nat) : List TimedFrame → Option (TimedFrame × List TimedFrame)
  | [] => none
  | e :: rest =>
    if is_flow_control_frame e.2 && decide (e.1 < deadline) then some (e, rest)
    else (popFCTimed deadline rest).map (fun p => (p.1, e :: p.2))

/-- session.py `CANTPSession._wait_for_flow_control`, fuel-indexed body.
`timeout_ms` is the fixed absolute deadline (`flow_control_timeout_ms`,
measured from the start of the wait); `now` is the time already elapsed.
A WAIT frame loops without restarting the deadline; an OVFLW frame or an
expired deadline yields `none`; any other flow status is returned with
the block size and STmin carried by the frame. -/
def waitFCAux (timeout_ms : Nat) : Nat → List TimedFrame → Nat → Option FlowControlSettings
  | fuel, evs, now =>
    if timeout_ms ≤ now then none
    else
      match popFCTimed timeout_ms evs with
      | none => none
      | some ((t, f), rest) =>
        let (fcfs, fcbs, fcstmin) := extractCF f
        if fcfs == FCFS_WAIT then
          match fuel with
          | 0 => none
          | fuel + 1 => waitFCAux timeout_ms fuel rest (max now t)
        else if fcfs == FCFS_OVFLW then none
        else some { block_size := fcbs, st_min := fcstmin, flow_status := fcfs }

/-- session.py `CANTPSession._wait_for_flow_control`. -/
def wait_for_flow_control (timeout_ms : Nat) (evs : List TimedFrame) (now : Nat) : Option FlowControlSettings :=
  waitFCAux timeout_ms evs.length evs now

/-- CANInterface.py `write`, data path: the hex-string payload is parsed
back to bytes (which cancels with the sender's `HexArr2Str`), and DLC
padding with the session padding byte is applied only on a CAN-FD bus.
The bus itself is assumed healthy, so the write succeeds and this returns
the byte content the bus observes.  The `getD` default is unreachable:
`calculateLength_dlc` always finds a step for frames of at most 64
bytes. -/
def writeBusData (is_fd : Bool) (padding : Nat) (frame : List Nat) : List Nat :=
  if is_fd then (add_padding frame padding).getD frame else frame

/-- session.py `CANTPSession.send`, Consecutive-Frame segmentation loop.
Arguments mirror the loop state: remaining data, sequence number, frames
emitted in the current block, current block size and (raw) STmin, and the
per-wait Flow-Control scripts (one timed-frame list per later
`_wait_for_flow_control` call).  Returns the success flag, the bus data
of the emitted CF frames in order, and the number of Flow-Control waits
performed.  Fuel is structural; `remain.length` suffices for any
`chunk_length ≥ 8` since every iteration consumes at least one byte. -/
def sendCFLoop (chunk_length : Nat) (is_fd : Bool) (padding timeout_ms : Nat) :
    Nat → List Nat → Nat → Nat → Nat → Nat → List (List TimedFrame) →
    Bool × List (List Nat) × Nat
  | _, [], _, _, _, _, _ => (true, [], 0)
  | 0, _, _, _, _, _, _ => (false, [], 0)
  | fuel + 1, remain, SN, frames_in_block, block_size, st_min, fcWaits =>
    let SN' := increaseSN SN
    let (frame, remain') := nextCF SN' remain chunk_length
    let bus := writeBusData is_fd padding frame
    let fib := frames_in_block + 1
    if block_size ≠ 0 ∧ block_size ≤ fib ∧ remain' ≠ [] then
      match wait_for_flow_control timeout_ms (fcWaits.headD []) 0 with
      | none => (false, [bus], 1)
      | some fc =>
        if fc.flow_status ≠ FCFS_CTS then (false, [bus], 1)
        else
          let (ok, frames, waits) :=
            sendCFLoop chunk_length is_fd padding timeout_ms fuel remain' SN' 0
              fc.block_size fc.st_min fcWaits.tail
          (ok, bus :: frames, 1 + waits)
    else
      let (ok, frames, waits) :=
        sendCFLoop chunk_length is_fd padding timeout_ms fuel remain' SN' fib
          block_size st_min fcWaits
      (ok, bus :: frames, waits)

/-- session.py `CANTPSession.send` on an already-parsed byte payload:
emit the frame built by `convertFF`; when nothing remains it was a single
frame and the send succeeds with no Flow-Control wait; otherwise wait for
Flow Control (`fcWaits` holds one timed script per wait, in order) and
run the segmentation loop.  Returns the success flag, the bus data of
every emitted frame in order, and the number of Flow-Control waits. -/
def sessionSendCore (chunk_length : Nat) (is_fd : Bool) (padding timeout_ms : Nat)
    (raw_data : List Nat) (fcWaits : List (List TimedFrame)) :
    Bool × List (List Nat) × Nat :=
  let (frame, remain_data) := convertFF raw_data chunk_length
  if remain_data = [] then (true, [writeBusData is_fd padding frame], 0)
  else
    match wait_for_flow_control timeout_ms (fcWaits.headD []) 0 with
    | none => (false, [writeBusData is_fd padding frame], 1)
    | some fc =>
      let (ok, frames, waits) :=
        sendCFLoop chunk_length is_fd padding timeout_ms remain_data.length
          remain_data 0 0 fc.block_size fc.st_min fcWaits.tail
      (ok, writeBusData is_fd padding frame :: frames, 1 + waits)

/-- session.py `CANTPSession.send` from the ASCII hex payload, as the
diagnostic layer calls it: `Str2HexArr` first (`none` embeds the
`ValueError` a malformed hex string raises), then the byte-level send. -/
def sessionSend (chunk_length : Nat) (is_fd : Bool) (padding timeout_ms : Nat)
    (data : List Char) (fcWaits : List (List TimedFrame)) :
    Option (Bool × List (List Nat) × Nat) :=
  (Str2HexArr data).map
    (fun raw => sessionSendCore chunk_length is_fd padding timeout_ms raw fcWaits)

/-! ## CANIF/RWThread/CANReaderThread.py -/

/-- Frame as delivered by the bus driver. -/
structure CanMsg where
  arbitration_id : Nat
  data : List Nat
deriving DecidableEq, Repr

/-- Reader state.  Maps are embedded as functions from the normalised id;
`named_id_queues` keeps the per-id named queues as an association list in
registration order; callbacks are identified by handles (`Nat`) so the
fanout log can say which ones were invoked.  `latest_msgs`, `id_last_seen`
use `Option` for absent keys. -/
structure ReaderState where
  default_queue : List CanMsg
  id_queues : Nat → List CanMsg
  named_id_queues : Nat → List (String × List CanMsg)
  latest_msgs : Nat → Option CanMsg
  id_last_seen : Nat → Option Nat
  subscribe_ids : Nat → Bool
  callbacks : Nat → List Nat

/-- CANReaderThread.py `run`, body of one loop iteration for a received
frame: under the lock, stamp `latest_msgs` and `id_last_seen`, append to
the per-id queue and to every named queue registered under the frame's
id, and snapshot the callbacks if the id is subscribed; outside the lock,
push to the default queue.  Returns the new state and the snapshot of
callback handles invoked (each exactly once, in registration order). -/
def readerProcess (s : ReaderState) (msg : CanMsg) (now : Nat) : ReaderState × List Nat :=
  let i := msg.arbitration_id
  let s' : ReaderState :=
    { default_queue := s.default_queue ++ [msg]
      id_queues := fun j => if j = i then s.id_queues j ++ [msg] else s.id_queues j
      named_id_queues := fun j =>
        if j = i then (s.named_id_queues j).map (fun p => (p.1, p.2 ++ [msg]))
        else s.named_id_queues j
      latest_msgs := fun j => if j = i then some msg else s.latest_msgs j
      id_last_seen := fun j => if j = i then some now else s.id_last_seen j
      subscribe_ids := s.subscribe_ids
      callbacks := s.callbacks }
  (s', if s.subscribe_ids i then s.callbacks i else [])

/-- CANReaderThread.py `run`, callback fanout outside the lock: every
callback in the snapshot is invoked with the frame; an exception raised
by one callback is caught and logged, so the loop still reaches every
later callback and the reader state is untouched.  `results` gives each
callback's outcome (`Except` models a raised exception); the returned log
pairs each invoked handle with whether it succeeded. -/
def runCallbacks (snapshot : List Nat) (results : Nat → Except String Unit) : List (Nat × Bool) :=
  snapshot.map (fun cb => (cb, (results cb).toBool))

/-- CANReaderThread.py `subscribe` with a queue name: add the id to the
subscriber set, append the optional callback, and ensure a fresh named
queue (clearing a pre-existing one). -/
def readerSubscribe (s : ReaderState) (i : Nat) (cb : Option Nat) (queue_name : String) : ReaderState :=
  { s with
    subscribe_ids := fun j => if j = i then true else s.subscribe_ids j
    callbacks := fun j =>
      if j = i then
        match cb with
        | some c => s.callbacks j ++ [c]
        | none => s.callbacks j
      else s.callbacks j
    named_id_queues := fun j =>
      if j = i then
        if (s.named_id_queues j).any (fun p => p.1 = queue_name) then
          (s.named_id_queues j).map (fun p => if p.1 = queue_name then (p.1, []) else p)
        else s.named_id_queues j ++ [(queue_name, [])]
      else s.named_id_queues j }

/-- CANReaderThread.py `unsubscribe`: drop the id from the subscriber
set, pop every callback registered for the id, remove the named queue
when a name is given (else drop the default per-id queue), and remove
`latest_msgs[id]` in either case. -/
def readerUnsubscribe (s : ReaderState) (i : Nat) (queue_name : Option String) : ReaderState :=
  { s with
    subscribe_ids := fun j => if j = i then false else s.subscribe_ids j
    callbacks := fun j => if j = i then [] else s.callbacks j
    named_id_queues := fun j =>
      if j = i then
        match queue_name with
        | some n => (s.named_id_queues j).filter (fun p => p.1 ≠ n)
        | none => s.named_id_queues j
      else s.named_id_queues j
    id_queues := fun j =>
      if j = i then
        match queue_name with
        | some _ => s.id_queues j
        | none => []
      else s.id_queues j
    latest_msgs := fun j => if j = i then none else s.latest_msgs j }

/-! ## CANIF/RWThread/CANWriterScheduler.py -/

/-- MessageTask state.  Event objects are embedded as booleans
(`pause_event_set` is true when the task is not paused); `payloads k` is
the value the `get_payload` closure returns on its `k`-th call and
`n_calls` counts the calls made; `sends` logs the payload of every frame
submitted to `bus.send` in order. -/
structure TaskState where
  msg_id : Nat
  period : ℚ
  duration : Option ℚ
  payloads : Nat → List Nat
  n_calls : Nat
  running : Bool
  stop_event : Bool
  pause_event_set : Bool
  wake_event : Bool
  in_burst_mode : Bool
  burst_count : Nat
  next_periodic_time : ℚ
  sends : List (List Nat)

/-- Result of one iteration of `_send_loop`: the loop either exits, or
blocks on a cleared pause event, or goes round again. -/
inductive LoopStep where
  | exited (s : TaskState)
  | blocked (s : TaskState)
  | looping (s : TaskState)

/-- CANWriterScheduler.py `MessageTask._send_loop`, one iteration, with
the clock reading for this iteration supplied explicitly (`now`).
A cleared pause event blocks the iteration; a set stop event or an
exceeded duration exits; a zero period evaluates the payload, sends it
once, clears `running` and exits; a pending burst mode sends
`burst_count` frames then resumes cadence; otherwise the periodic branch
waits out `next_periodic_time` (a wake signal restarts the iteration)
and then sends one periodic frame. -/
def sendLoopIter (s : TaskState) (now : ℚ) : LoopStep :=
  if ¬ s.running then .exited s
  else if ¬ s.pause_event_set then .blocked s
  else if s.stop_event then .exited s
  else if (match s.duration with | some d => decide (d < now) | none => false) then
    .exited { s with running := false }
  else if s.period = 0 then
    let payload := s.payloads s.n_calls
    .exited { s with n_calls := s.n_calls + 1, sends := s.sends ++ [payload], running := false }
  else if s.in_burst_mode then
    let burst := (List.range s.burst_count).map (fun k => s.payloads (s.n_calls + k))
    .looping { s with
      n_calls := s.n_calls + s.burst_count
      sends := s.sends ++ burst
      in_burst_mode := false
      next_periodic_time := s.next_periodic_time + s.period }
  else if now < s.next_periodic_time then
    if s.wake_event then .looping { s with wake_event := false }
    else
      let payload := s.payloads s.n_calls
      .looping { s with
        n_calls := s.n_calls + 1
        sends := s.sends ++ [payload]
        next_periodic_time := s.next_periodic_time + s.period }
  else
    let payload := s.payloads s.n_calls
    .looping { s with
      n_calls := s.n_calls + 1
      sends := s.sends ++ [payload]
      next_periodic_time := s.next_periodic_time + s.period }

/-- CANWriterScheduler.py `MessageTask._send_loop`: iterate
`sendLoopIter` with the clock stream `clock` (the reading taken at the
top of the `k`-th iteration) until the loop exits or blocks, bounded by
fuel. -/
def sendLoop (clock : Nat → ℚ) : Nat → Nat → TaskState → LoopStep
  | 0, _, s => .looping s
  | fuel + 1, k, s =>
    match sendLoopIter s (clock k) with
    | .looping s' => sendLoop clock fuel (k + 1) s'
    | r => r

/-- CANWriterScheduler.py `MessageTask.stop`: clear `running`, set the
stop, pause and wake events (the thread join has no state effect). -/
def taskStop (t : TaskState) : TaskState :=
  { t with running := false, stop_event := true, pause_event_set := true, wake_event := true }

/-- CANWriterScheduler.py `SmartCanMessageScheduler.stop_message`: pop
the task for the id and, when present, stop it; ids without a task are
left untouched and no error is raised. -/
def stop_message (tasks : List (Nat × TaskState)) (msg_id : Nat) : List (Nat × TaskState) × Option TaskState :=
  match tasks.find? (fun p => p.1 = msg_id) with
  | none => (tasks, none)
  | some p => (tasks.filter (fun q => q.1 ≠ msg_id), some (taskStop p.2))

/-! ## COMDIAG/ComDia.py

The underlying `cantp.receive` is embedded as consuming the next scripted
response from a list (the loopback ECU's answers in order); an exhausted
script models the CAN-TP timeout, which returns an empty payload. -/

/-- ComDia.py `ComDiag.receive`: read a response; while it is a negative
response (first byte 0x7F) of more than two bytes whose third byte is
0x78 (response pending), read again with the same `timeout` argument.
Returns the final response together with the script remaining after the
consumed responses. -/
def comReceive (timeout : Nat) : List (List Nat) → List Nat × List (List Nat)
  | [] => ([], [])
  | recv :: rest =>
    if recv ≠ [] ∧ NRC_check recv ∧ 2 < recv.length ∧ recv.getD 2 0 = 0x78 then
      comReceive timeout rest
    else (recv, rest)

/-- ComDia.py `send_and_received`, response matching: the response is
returned when its first byte equals the request SID, or the first byte
minus 0x40 equals the SID (positive response), or the same for the second
byte; otherwise `none`.  At byte level `Hex(int(recv[k],16) - 0x40)` can
equal the two-digit SID only when the byte is at least 0x40. -/
def sidMatches (SID : Nat) (recv : List Nat) : Option (List Nat) :=
  let b0 := recv.getD 0 0
  if b0 = SID ∨ (0x40 ≤ b0 ∧ b0 - 0x40 = SID) then some recv
  else if 1 < recv.length then
    let b1 := recv.getD 1 0
    if b1 = SID ∨ (0x40 ≤ b1 ∧ b1 - 0x40 = SID) then some recv else none
  else none

/-- ComDia.py `send_and_received` retry loop: while the received payload
is empty and the overall deadline has not passed, call `receive` again.
The number of retries the deadline still allows is embedded as fuel. -/
def comReceiveRetry (timeout : Nat) (script : List (List Nat)) : Nat → List Nat × List (List Nat)
  | 0 => comReceive timeout script
  | fuel + 1 =>
    match comReceive timeout script with
    | ([], rest) => comReceiveRetry timeout rest fuel
    | r => r

/-- ComDia.py `send_and_received` for a request with service identifier
`SID`, assuming the CAN-TP send succeeded: read (with pending-response
rewaiting and empty-retry loop) and match the response against the SID.
`retries` bounds the empty-retry loop (the wall-clock deadline). -/
def send_and_received (SID : Nat) (timeout retries : Nat) (script : List (List Nat)) : Option (List Nat) :=
  let (recv, _) := comReceiveRetry timeout script retries
  if recv = [] then none else sidMatches SID recv

/-! ## E2E/DbcAdapter.py -/

/-- DBCAdapter state, restricted to what `push_signals` and the
pending-update half of `get_payload` touch.  `message_trim m` is `some`
exactly for the messages of the loaded DBC and maps each of the message's
signals to its `(minimum, maximum)` bounds; `current_signals` holds the
per-message signal values (a stored value may be non-numeric only via
`trimPy`'s pass-through); `signal_queues m` is the capacity-1 pending
deque, `some upd` when a record is pending. -/
structure DbcState where
  message_trim : String → Option (String → Option (Option ℚ × Option ℚ))
  current_signals : String → String → Option PyVal
  signal_queues : String → Option (List (String × PyVal))

/-- Application of a pending update record to a signal map, with Python
`dict.update` semantics: the last occurrence of a key in the record
wins. -/
def applyUpdates (cur : String → Option PyVal) (upd : List (String × PyVal)) : String → Option PyVal :=
  fun sig =>
    match upd.reverse.find? (fun p => p.1 = sig) with
    | some p => some p.2
    | none => cur sig

/-- DbcAdapter.py `push_signals` per-signal clamping: look up the
signal's bounds in `message_trim` and clamp; a lookup failure (unknown
signal name) or a comparison failure (non-numeric value against a bound)
raises inside the `try`, is logged, and the signal is skipped. -/
def trimBatch (tm : String → Option (Option ℚ × Option ℚ)) (signals : List (String × PyVal)) : List (String × PyVal) :=
  signals.filterMap (fun p =>
    match tm p.1 with
    | none => none
    | some bounds => (trimPy p.2 bounds.1 bounds.2).map (fun v => (p.1, v)))

/-- DbcAdapter.py `push_signals`: under the DBC lock, raise `KeyError`
(`none`) for a message not in the DBC; otherwise clamp each signal of the
batch (skipping the ones that fail), apply the clamped record to
`current_signals` immediately, and publish it as the single pending
record of the message's capacity-1 queue. -/
def push_signals (st : DbcState) (message_name : String) (signals : List (String × PyVal)) : Option DbcState :=
  match st.message_trim message_name with
  | none => none
  | some tm =>
    let trimmed := trimBatch tm signals
    some { st with
      current_signals := fun m =>
        if m = message_name then applyUpdates (st.current_signals m) trimmed
        else st.current_signals m
      signal_queues := fun m =>
        if m = message_name then some trimmed else st.signal_queues m }

/-- DbcAdapter.py `get_payload`, pending-update step (the first locked
block): pop the pending record, if any, and apply it to
`current_signals`; encoding, alive-counter and CRC stamping happen after
this step and do not read the queue again. -/
def getPayloadPop (st : DbcState) (message_name : String) : DbcState :=
  match st.signal_queues message_name with
  | none => st
  | some upd =>
    { st with
      current_signals := fun m =>
        if m = message_name then applyUpdates (st.current_signals m) upd
        else st.current_signals m
      signal_queues := fun m =>
        if m = message_name then none else st.signal_queues m }

/-! ## Concrete states and helper projections used by the instance theorems -/

/-- Reader state with two named consumers and two callbacks registered
under the tester id 0x7BB, used to instantiate the C9 theorem. -/
def c9ReaderState : ReaderState where
  default_queue := []
  id_queues := fun j => if j = 0x7BB then [{ arbitration_id := 0x7BB, data := [1] }] else []
  named_id_queues := fun j => if j = 0x7BB then [("tp", []), ("log", [])] else []
  latest_msgs := fun j => if j = 0x7BB then some { arbitration_id := 0x7BB, data := [1] } else none
  id_last_seen := fun j => if j = 0x7BB then some 1 else none
  subscribe_ids := fun j => j == 0x7BB
  callbacks := fun j => if j = 0x7BB then [1, 2] else []

/-- Signal bounds of the concrete message used to instantiate C10. -/
def c10tm : String → Option (Option ℚ × Option ℚ) := fun s =>
  if s = "EngSpeed" then some (some 0, some 10)
  else if s = "Temp" then some (none, some 5)
  else none

/-- Concrete DBC state used to instantiate C10. -/
def c10State : DbcState where
  message_trim := fun m => if m = "Msg1" then some c10tm else none
  current_signals := fun m s => if m = "Msg1" ∧ s = "Temp" then some (.num 3) else none
  signal_queues := fun _ => none

/-- Concrete batch used to instantiate C10: a clampable numeric value, a
non-numeric value with a defined bound, and an unknown signal name. -/
def c10Batch : List (String × PyVal) :=
  [("EngSpeed", .num 20), ("Temp", .invalid), ("Ghost", .num 1)]

/-- Reader state used to instantiate C6: id 0x123 subscribed, two named
queues, two callbacks. -/
def c6ReaderState : ReaderState where
  default_queue := []
  id_queues := fun _ => []
  named_id_queues := fun j => if j = 0x123 then [("a", []), ("b", [])] else []
  latest_msgs := fun _ => none
  id_last_seen := fun _ => none
  subscribe_ids := fun j => j == 0x123
  callbacks := fun j => if j = 0x123 then [7, 8] else []

/-- Frame used to instantiate C6. -/
def c6Msg : CanMsg := { arbitration_id := 0x123, data := [1, 2] }

/-- Callback outcomes used to instantiate C6: callback 7 raises. -/
def c6Results : Nat → Except String Unit :=
  fun cb => if cb = 7 then .error "boom" else .ok ()

/-- Projection of a finished loop onto the final task state. -/
def exitedState : LoopStep → Option TaskState
  | .exited s => some s
  | .blocked _ => none
  | .looping _ => none

/-- Task used to instantiate C8: one-shot (`period = 0`), running, not
paused, not stopped, no duration cap. -/
def c8Task : TaskState where
  msg_id := 0x321
  period := 0
  duration := none
  payloads := fun _ => [0xDE, 0xAD]
  n_calls := 0
  running := true
  stop_event := false
  pause_event_set := true
  wake_event := false
  in_burst_mode := false
  burst_count := 0
  next_periodic_time := 0
  sends := []

/-- Loopback of the transport layer at chunk length 8: segment a payload
with `convertFF`/`nextCF` (the sender answering a CTS Flow Control frame
after the First Frame, block size 0, STmin 0), then feed every emitted
frame into a session's receive. -/
def tpLoopback (D : List Nat) : List Nat :=
  (sessionReceive 8 {}
    ((sessionSendCore 8 false 0 1000 D [[(0, [0x30, 0x00, 0x00, 0, 0, 0, 0, 0])]]).2.1)).1


/-- Closed form of the Consecutive-Frame sequence `sendCFLoop` emits at
chunk length 8 when the block size is 0 (no intermediate Flow-Control
waits): one frame per `nextCF` step until the remainder is exhausted.
Fuel is structural, as in the loop itself. -/
def cfFrames : Nat → Nat → List Nat → List (List Nat)
  | _, _, [] => []
  | 0, _, _ :: _ => []
  | fuel + 1, SN, a :: l =>
    (nextCF (increaseSN SN) (a :: l) 8).1 ::
      cfFrames fuel (increaseSN SN) (nextCF (increaseSN SN) (a :: l) 8).2

/-! ## Supporting lemmas: the hex-string conversions cancel -/

/-- Per-byte facts about `byteToHexPair`, checked over all byte values:
the two characters are upper-case hex digits (hence not spaces and fixed
by `Char.toUpper`) and parse back to the byte. -/
theorem byteToHexPair_facts : ∀ b : Fin 256,
    ((byteToHexPair b.val).filter (fun c => c ≠ ' ')).map Char.toUpper = byteToHexPair b.val ∧
    parseHexDigits (byteToHexPair b.val) = some b.val := by decide

/-- Unfolding the byte-by-byte fold of `HexArr2Str` into a concatenation. -/
theorem hexFoldl_eq : ∀ (l : List Nat) (acc : List Char),
    l.foldl (fun a b => a ++ byteToHexPair b ++ [' ']) acc
      = acc ++ (l.map (fun b => byteToHexPair b ++ [' '])).flatten := by
  intro l
  induction l with
  | nil => intro acc; simp
  | cons b l ih =>
    intro acc
    rw [List.foldl_cons, ih]
    simp [List.append_assoc]

/-- Space-filtering and upper-casing the space-separated hex rendering of
a byte list leaves exactly the concatenated hex pairs. -/
theorem hexArr2Str_cleaned (l : List Nat) (h : ∀ b ∈ l, b < 256) :
    ((HexArr2Str l).filter (fun c => c ≠ ' ')).map Char.toUpper =
      (l.map byteToHexPair).flatten := by
  induction l with
  | nil => rfl
  | cons b l ih =>
    have hb : b < 256 := h b (List.mem_cons_self b l)
    have hl : ∀ x ∈ l, x < 256 := fun x hx => h x (List.mem_cons_of_mem b hx)
    have step : HexArr2Str (b :: l) = (byteToHexPair b ++ [' ']) ++ (l.map (fun x => byteToHexPair x ++ [' '])).flatten := by
      show List.foldl (fun a x => a ++ byteToHexPair x ++ [' ']) [] (b :: l) = _
      rw [hexFoldl_eq (b :: l) []]
      simp [List.append_assoc]
    have unstep : HexArr2Str l = (l.map (fun x => byteToHexPair x ++ [' '])).flatten := by
      show List.foldl (fun a x => a ++ byteToHexPair x ++ [' ']) [] l = _
      rw [hexFoldl_eq l []]
      simp
    rw [step, List.filter_append, List.filter_append, List.map_append, List.map_append,
      List.map_cons, List.flatten_cons]
    have hsp : List.filter (fun c => decide (c ≠ ' ')) [' '] = ([] : List Char) := by decide
    rw [hsp]
    rw [(byteToHexPair_facts ⟨b, hb⟩).1]
    rw [← unstep, ih hl]
    simp

/-- The concatenated hex pairs have even length. -/
theorem flatten_pairs_length (l : List Nat) :
    ((l.map byteToHexPair).flatten).length = 2 * l.length := by
  induction l with
  | nil => rfl
  | cons b l ih =>
    simp only [List.map_cons, List.flatten_cons, List.length_append, ih, byteToHexPair,
      List.length_cons, List.length_nil]
    ring

/-- Splitting the concatenated pairs recovers the pairs. -/
theorem splitPairs_flatten (l : List Nat) :
    splitPairs ((l.map byteToHexPair).flatten) = l.map byteToHexPair := by
  induction l with
  | nil => rfl
  | cons b l ih =>
    show splitPairs (byteToHexPair b ++ (l.map byteToHexPair).flatten) = _
    show splitPairs ((hexDigitChar (b / 16 % 16)).toUpper :: (hexDigitChar (b % 16)).toUpper
      :: (l.map byteToHexPair).flatten) = _
    rw [show ∀ c₁ c₂ rest, splitPairs (c₁ :: c₂ :: rest) = [c₁, c₂] :: splitPairs rest
      from fun c₁ c₂ rest => rfl]
    rw [ih]
    rfl

/-- Parsing the hex pairs of a byte list recovers the bytes. -/
theorem mapM_parse_pairs (l : List Nat) (h : ∀ b ∈ l, b < 256) :
    (l.map byteToHexPair).mapM parseHexDigits = some l := by
  induction l with
  | nil => rfl
  | cons b l ih =>
    have hb : b < 256 := h b (List.mem_cons_self b l)
    have hl : ∀ x ∈ l, x < 256 := fun x hx => h x (List.mem_cons_of_mem b hx)
    simp only [List.map_cons, List.mapM_cons, (byteToHexPair_facts ⟨b, hb⟩).2, ih hl]
    rfl

/-- The hex-string round trip cancels: parsing the space-separated hex
rendering of a byte list yields the byte list back.  This identifies the
byte-level frame pipeline of the embedding with the hex-string pipeline
of the source. -/
theorem str2HexArr_hexArr2Str (l : List Nat) (h : ∀ b ∈ l, b < 256) :
    Str2HexArr (HexArr2Str l) = some l := by
  simp only [Str2HexArr, hexArr2Str_cleaned l h, flatten_pairs_length, Nat.mul_mod_right]
  rw [if_neg (by omega)]
  rw [splitPairs_flatten l]
  exact mapM_parse_pairs l h

/-! ## Claim C2 — DLC padding -/

/-- C2.  The claim states that for a payload longer than 8 bytes
`add_padding` rounds up to the smallest CAN-FD DLC step in
the set 8, 12, 16, 20, 24, 32, 48, 64.  The code disagrees: its
`Data_size` table contains 36 in place of 32, so a 25-byte payload is
padded to 36 bytes — not a CAN-FD DLC step at all, where the claim (and
the CAN-FD standard) requires 32.  This theorem evaluates the embedded
code at the failing input. -/
theorem C2_dlc_padding_code_eval :
    add_padding (List.replicate 25 0x11) 0xAA =
      some (List.replicate 25 0x11 ++ List.replicate 11 0xAA) ∧
    (add_padding (List.replicate 25 0x11) 0xAA).map List.length = some 36 ∧
    specDlcSteps.find? (fun d => decide (25 ≤ d)) = some 32 ∧
    ¬ 36 ∈ specDlcSteps := by decide

/-! ## Claim C9 — unsubscribe with a queue name -/

/-- C9.  Unsubscribing one named queue does more than remove that
buffer: `unsubscribe(i, name)` also removes `i` from the subscriber set,
deletes every callback registered for `i`, and removes `latest[i]`, even
while the other named queues for `i` stay registered (and the per-id
queue stays in place).  Consequently a frame for `i` processed afterwards
invokes no callback at all, silencing every other consumer subscribed to
the same id. -/
theorem C9_unsubscribe_named_drops_callbacks (s : ReaderState) (i : Nat) (n : String)
    (msg : CanMsg) (now : Nat) (hmsg : msg.arbitration_id = i) :
    (readerUnsubscribe s i (some n)).subscribe_ids i = false ∧
    (readerUnsubscribe s i (some n)).callbacks i = [] ∧
    (readerUnsubscribe s i (some n)).latest_msgs i = none ∧
    (readerUnsubscribe s i (some n)).named_id_queues i =
      (s.named_id_queues i).filter (fun p => p.1 ≠ n) ∧
    (readerUnsubscribe s i (some n)).id_queues i = s.id_queues i ∧
    (readerProcess (readerUnsubscribe s i (some n)) msg now).2 = [] := by
  subst hmsg
  simp [readerUnsubscribe, readerProcess]

/-- Concrete instance of `C9_unsubscribe_named_drops_callbacks`: two
consumers hold named queues under id 0x7BB with two registered
callbacks; removing the queue of one consumer leaves the other's queue
registered but drops the subscription, both callbacks and the latest
frame, and a further frame triggers no callback. -/
theorem C9_unsubscribe_named_drops_callbacks_witness :
    (readerUnsubscribe c9ReaderState 0x7BB (some "tp")).subscribe_ids 0x7BB = false ∧
    (readerUnsubscribe c9ReaderState 0x7BB (some "tp")).callbacks 0x7BB = [] ∧
    (readerUnsubscribe c9ReaderState 0x7BB (some "tp")).latest_msgs 0x7BB = none ∧
    (readerUnsubscribe c9ReaderState 0x7BB (some "tp")).named_id_queues 0x7BB =
      (c9ReaderState.named_id_queues 0x7BB).filter (fun p => p.1 ≠ "tp") ∧
    (readerUnsubscribe c9ReaderState 0x7BB (some "tp")).id_queues 0x7BB =
      c9ReaderState.id_queues 0x7BB ∧
    (readerProcess (readerUnsubscribe c9ReaderState 0x7BB (some "tp"))
      { arbitration_id := 0x7BB, data := [0x10, 0x0A] } 5).2 = [] :=
  C9_unsubscribe_named_drops_callbacks c9ReaderState 0x7BB "tp"
    { arbitration_id := 0x7BB, data := [0x10, 0x0A] } 5 rfl

/-! ## Claim C10 — immediate application of pushed signals -/

/-- In a batch with unique signal names (a Python dict), a name
determines its value. -/
theorem batch_keys_unique {β : Type} :
    ∀ (sigs : List (String × β)), (sigs.map Prod.fst).Nodup →
      ∀ {s : String} {v v' : β}, (s, v) ∈ sigs → (s, v') ∈ sigs → v = v' := by
  intro sigs
  induction sigs with
  | nil => intro _ s v v' h1; cases h1
  | cons a rest ih =>
    intro h s v v' h1 h2
    rw [List.map_cons, List.nodup_cons] at h
    rcases List.mem_cons.mp h1 with h1h | h1t <;>
      rcases List.mem_cons.mp h2 with h2h | h2t
    · have : (s, v) = (s, v') := h1h.trans h2h.symm
      exact congrArg Prod.snd this
    · exfalso
      apply h.1
      have ha : a.1 = s := (congrArg Prod.fst h1h).symm
      rw [ha]
      exact List.mem_map.mpr ⟨(s, v'), h2t, rfl⟩
    · exfalso
      apply h.1
      have ha : a.1 = s := (congrArg Prod.fst h2h).symm
      rw [ha]
      exact List.mem_map.mpr ⟨(s, v), h1t, rfl⟩
    · exact ih h.2 h1t h2t

/-- Every entry of a clamped batch stems from a batch entry of the same
name whose clamping succeeded. -/
theorem trimBatch_mem (tm : String → Option (Option ℚ × Option ℚ))
    (sigs : List (String × PyVal)) {p : String × PyVal}
    (hp : p ∈ trimBatch tm sigs) :
    ∃ v mn mx, (p.1, v) ∈ sigs ∧ tm p.1 = some (mn, mx) ∧ trimPy v mn mx = some p.2 := by
  obtain ⟨a, ha, hfa⟩ := List.mem_filterMap.mp hp
  rcases htm : tm a.1 with _ | bounds
  · rw [htm] at hfa
    cases hfa
  · rw [htm] at hfa
    have hfa' : (trimPy a.2 bounds.1 bounds.2).map (fun v => (a.1, v)) = some p := hfa
    obtain ⟨w, hw, hwp⟩ := Option.map_eq_some'.mp hfa'
    subst hwp
    exact ⟨a.2, bounds.1, bounds.2, ha, htm, hw⟩

/-- A list of keyed pairs whose only entry with key `s` is `(s, v)` finds
exactly that entry. -/
theorem find?_key_unique {β : Type} (L : List (String × β)) {s : String} {v : β}
    (hmem : (s, v) ∈ L) (huniq : ∀ p ∈ L, p.1 = s → p = (s, v)) :
    L.find? (fun p => p.1 = s) = some (s, v) := by
  induction L with
  | nil => cases hmem
  | cons a rest ih =>
    by_cases ha : a.1 = s
    · have hav : a = (s, v) := huniq a (List.mem_cons_self a rest) ha
      rw [List.find?_cons_of_pos _ (by simp [ha]), hav]
    · have hmem' : (s, v) ∈ rest := by
        rcases List.mem_cons.mp hmem with h | h
        · exact absurd (congrArg Prod.fst h.symm) ha
        · exact h
      rw [List.find?_cons_of_neg _ (by simp [ha])]
      exact ih hmem' (fun p hp => huniq p (List.mem_cons_of_mem a hp))

/-- Applying an update record whose only entry with key `s` is `(s, v)`
stores `v` at `s`. -/
theorem applyUpdates_eq_of_unique (cur : String → Option PyVal)
    (upd : List (String × PyVal)) {s : String} {v : PyVal}
    (hmem : (s, v) ∈ upd) (huniq : ∀ p ∈ upd, p.1 = s → p = (s, v)) :
    applyUpdates cur upd s = some v := by
  unfold applyUpdates
  rw [find?_key_unique upd.reverse (List.mem_reverse.mpr hmem)
    (fun p hp => huniq p (List.mem_reverse.mp hp))]

/-- Applying an update record with no entry for `s` leaves `s` alone. -/
theorem applyUpdates_eq_of_absent (cur : String → Option PyVal)
    (upd : List (String × PyVal)) (s : String)
    (h : ∀ p ∈ upd, p.1 ≠ s) : applyUpdates cur upd s = cur s := by
  unfold applyUpdates
  rw [List.find?_eq_none.mpr (fun x hx => by simpa using h x (List.mem_reverse.mp hx))]

/-- Re-applying the same update record is idempotent on the signal map. -/
theorem applyUpdates_idem (cur : String → Option PyVal) (upd : List (String × PyVal)) :
    applyUpdates (applyUpdates cur upd) upd = applyUpdates cur upd := by
  funext s
  show (match upd.reverse.find? (fun p => p.1 = s) with
    | some p => some p.2
    | none => applyUpdates cur upd s) = applyUpdates cur upd s
  rcases h : upd.reverse.find? (fun p => p.1 = s) with _ | p
  · simp [h]
  · simp [h, applyUpdates]

/-- Popping the pending record after it has already been applied to the
current signals is invisible to readers of the signal map, and clears
the queue. -/
theorem getPayloadPop_noop (st' : DbcState) (m : String) (u : List (String × PyVal))
    (c : String → Option PyVal)
    (hq : st'.signal_queues m = some u) (hc : st'.current_signals m = applyUpdates c u) :
    (getPayloadPop st' m).current_signals = st'.current_signals ∧
    (getPayloadPop st' m).signal_queues m = none := by
  unfold getPayloadPop
  rw [hq]
  constructor
  · funext m' s
    by_cases hm : m' = m
    · subst hm
      simp [hc, applyUpdates_idem]
    · simp only [if_neg hm]
  · simp

/-- C10.  `push_signals(m, updates)` applies the clamped values to
`current_signals[m]` immediately (under the DBC lock), in addition to
publishing them as the single record of the capacity-1 pending queue;
a signal whose clamping fails (unknown name, or a non-numeric value
compared against a bound) is skipped while every other signal of the
batch is still applied, and signals not in the batch are untouched;
and the later pending-pop of `get_payload` applies the same record
again, so a reader of the current signal map sees the new values
already before `get_payload` consumes the pending record. -/
theorem C10_push_signals_immediate (st : DbcState) (m : String)
    (sigs : List (String × PyVal)) (tm : String → Option (Option ℚ × Option ℚ))
    (htm : st.message_trim m = some tm)
    (hnodup : (sigs.map Prod.fst).Nodup) :
    ∃ st', push_signals st m sigs = some st' ∧
      st'.signal_queues m = some (trimBatch tm sigs) ∧
      (∀ s q mn mx, (s, PyVal.num q) ∈ sigs → tm s = some (mn, mx) →
        st'.current_signals m s = some (.num (trim q mn mx))) ∧
      (∀ s v, (s, v) ∈ sigs → tm s = none →
        st'.current_signals m s = st.current_signals m s) ∧
      (∀ s mn mx, (s, PyVal.invalid) ∈ sigs → tm s = some (mn, mx) →
        (mn.isSome ∨ mx.isSome) →
        st'.current_signals m s = st.current_signals m s) ∧
      (∀ s, ¬ s ∈ sigs.map Prod.fst →
        st'.current_signals m s = st.current_signals m s) ∧
      (getPayloadPop st' m).current_signals = st'.current_signals ∧
      (getPayloadPop st' m).signal_queues m = none := by
  unfold push_signals
  rw [htm]
  have hpop := getPayloadPop_noop
    { st with
      current_signals := fun m' =>
        if m' = m then applyUpdates (st.current_signals m') (trimBatch tm sigs)
        else st.current_signals m'
      signal_queues := fun m' =>
        if m' = m then some (trimBatch tm sigs) else st.signal_queues m' }
    m (trimBatch tm sigs) (st.current_signals m) (by simp) (by simp)
  refine ⟨_, rfl, by simp, ?_, ?_, ?_, ?_, hpop.1, hpop.2⟩
  · -- clamped values are applied immediately
    intro s q mn mx hmem htms
    simp only [if_pos rfl]
    apply applyUpdates_eq_of_unique
    · refine List.mem_filterMap.mpr ⟨(s, .num q), hmem, ?_⟩
      show (match tm s with
        | none => none
        | some bounds => (trimPy (PyVal.num q) bounds.1 bounds.2).map (fun v => (s, v))) = _
      rw [htms]
      rfl
    · intro p hp hps
      obtain ⟨v', mn', mx', hmem2, htm2, htrim2⟩ := trimBatch_mem tm sigs hp
      rw [hps] at hmem2 htm2
      have hv' : v' = .num q := batch_keys_unique sigs hnodup hmem2 hmem
      rw [hv'] at htrim2
      rw [htms] at htm2
      have h2 := Option.some.inj htm2
      have h2a : mn = mn' := congrArg Prod.fst h2
      have h2b : mx = mx' := congrArg Prod.snd h2
      rw [← h2a, ← h2b] at htrim2
      have hp2 : some (PyVal.num (trim q mn mx)) = some p.2 := htrim2
      obtain ⟨p1, p2⟩ := p
      simp only at hps
      have hp2' : p2 = PyVal.num (trim q mn mx) := (Option.some.inj hp2).symm
      rw [hps, hp2']
  · -- a signal with an unknown name is skipped
    intro s v hmem htms
    simp only [if_pos rfl]
    apply applyUpdates_eq_of_absent
    intro p hp hps
    obtain ⟨v', mn', mx', hmem2, htm2, _⟩ := trimBatch_mem tm sigs hp
    rw [hps, htms] at htm2
    cases htm2
  · -- a non-numeric value compared against a bound is skipped
    intro s mn mx hmem htms hbound
    simp only [if_pos rfl]
    apply applyUpdates_eq_of_absent
    intro p hp hps
    obtain ⟨v', mn', mx', hmem2, htm2, htrim2⟩ := trimBatch_mem tm sigs hp
    rw [hps] at hmem2 htm2
    have hv' : v' = .invalid := batch_keys_unique sigs hnodup hmem2 hmem
    rw [hv'] at htrim2
    rw [htms] at htm2
    have h2 := Option.some.inj htm2
    have h2a : mn = mn' := congrArg Prod.fst h2
    have h2b : mx = mx' := congrArg Prod.snd h2
    rw [← h2a, ← h2b] at htrim2
    rcases mn with _ | mval
    · rcases mx with _ | xval
      · rcases hbound with hb | hb <;> simp at hb
      · cases htrim2
    · cases htrim2
  · -- a name outside the batch is untouched
    intro s hs
    simp only [if_pos rfl]
    apply applyUpdates_eq_of_absent
    intro p hp hps
    obtain ⟨v', _, _, hmem2, _, _⟩ := trimBatch_mem tm sigs hp
    rw [hps] at hmem2
    exact hs (List.mem_map.mpr ⟨(s, v'), hmem2, rfl⟩)

/-- Concrete instance of `C10_push_signals_immediate`: pushing the batch
applies 20 clamped to 10 at `EngSpeed` immediately, skips the
non-numeric `Temp` (keeping its old value 3) and the unknown `Ghost`,
and the pop performed later by `get_payload` changes nothing further. -/
theorem C10_push_signals_immediate_witness :
    (push_signals c10State "Msg1" c10Batch).map
        (fun s2 => s2.current_signals "Msg1" "EngSpeed") = some (some (.num 10)) ∧
    (push_signals c10State "Msg1" c10Batch).map
        (fun s2 => s2.current_signals "Msg1" "Temp") = some (some (.num 3)) ∧
    (push_signals c10State "Msg1" c10Batch).map
        (fun s2 => s2.current_signals "Msg1" "Ghost") = some none ∧
    (push_signals c10State "Msg1" c10Batch).map
        (fun s2 => (getPayloadPop s2 "Msg1").current_signals "Msg1" "EngSpeed") =
      some (some (.num 10)) := by
  obtain ⟨st', hp, hq, hvalid, hunknown, hinvalid, habsent, hpopc, hpopq⟩ :=
    C10_push_signals_immediate c10State "Msg1" c10Batch c10tm rfl (by decide)
  have htrim : trim 20 (some 0) (some 10) = 10 := by
    show min (max (0 : ℚ) 20) 10 = 10
    norm_num
  have hs1 : st'.current_signals "Msg1" "EngSpeed" = some (.num 10) := by
    rw [hvalid "EngSpeed" 20 (some 0) (some 10) (by decide) rfl, htrim]
  refine ⟨?_, ?_, ?_, ?_⟩
  · rw [hp, Option.map_some', hs1]
  · rw [hp, Option.map_some',
      hinvalid "Temp" none (some 5) (by decide) rfl (Or.inr rfl)]
    rfl
  · rw [hp, Option.map_some', hunknown "Ghost" (.num 1) (by decide) rfl]
    rfl
  · rw [hp, Option.map_some', congrFun (congrFun hpopc "Msg1") "EngSpeed", hs1]

/-! ## Claim C6 — reader fanout invariant -/

/-- C6.  One iteration of the reader loop over a frame `f` with id `i`
appends `f` exactly once to the default queue, exactly once to the
per-id queue of `i`, and exactly once to every named queue registered
under `i`; stores `f` in `latest[i]` and stamps `last_seen[i]`; leaves
the queues of every other id untouched; and, when `i` is subscribed,
the callback snapshot invoked is exactly the callbacks registered for
`i`, each invoked exactly once with `f` even when other callbacks raise
(the exception is caught, so the invocation log always covers the whole
snapshot and the reader state never depends on callback outcomes). -/
theorem C6_reader_fanout (s : ReaderState) (msg : CanMsg) (now : Nat)
    (results : Nat → Except String Unit) (i : Nat) (hi : i = msg.arbitration_id) :
    (readerProcess s msg now).1.default_queue = s.default_queue ++ [msg] ∧
    (readerProcess s msg now).1.id_queues i = s.id_queues i ++ [msg] ∧
    (readerProcess s msg now).1.named_id_queues i =
      (s.named_id_queues i).map (fun p => (p.1, p.2 ++ [msg])) ∧
    (readerProcess s msg now).1.latest_msgs i = some msg ∧
    (readerProcess s msg now).1.id_last_seen i = some now ∧
    (readerProcess s msg now).2 = (if s.subscribe_ids i then s.callbacks i else []) ∧
    (runCallbacks (readerProcess s msg now).2 results).map Prod.fst =
      (readerProcess s msg now).2 ∧
    (¬ msg ∈ s.default_queue → ((readerProcess s msg now).1.default_queue).count msg = 1) ∧
    (¬ msg ∈ s.id_queues i → ((readerProcess s msg now).1.id_queues i).count msg = 1) ∧
    (∀ n q, (n, q) ∈ s.named_id_queues i → ¬ msg ∈ q →
      (n, q ++ [msg]) ∈ (readerProcess s msg now).1.named_id_queues i ∧
        (q ++ [msg]).count msg = 1) ∧
    (∀ j, j ≠ i →
      (readerProcess s msg now).1.id_queues j = s.id_queues j ∧
      (readerProcess s msg now).1.named_id_queues j = s.named_id_queues j ∧
      (readerProcess s msg now).1.latest_msgs j = s.latest_msgs j) := by
  subst hi
  refine ⟨rfl, by simp [readerProcess], by simp [readerProcess], by simp [readerProcess],
    by simp [readerProcess], rfl, ?_, ?_, ?_, ?_, ?_⟩
  · simp only [runCallbacks, List.map_map]
    exact List.map_id'' (fun x => rfl) _
  · intro hmem
    simp [readerProcess, List.count_append, List.count_eq_zero.mpr hmem]
  · intro hmem
    simp [readerProcess, List.count_append, List.count_eq_zero.mpr hmem]
  · intro n q hq hmem
    constructor
    · simp only [readerProcess, if_pos rfl]
      exact List.mem_map.mpr ⟨(n, q), hq, rfl⟩
    · simp [List.count_append, List.count_eq_zero.mpr hmem]
  · intro j hj
    simp [readerProcess, if_neg hj]

/-- Concrete instance of `C6_reader_fanout`: the frame lands once in the
default queue, once in the per-id queue, once in each of the two named
queues, `latest` and `last_seen` are stamped, and both callbacks are
invoked exactly once even though the first one raises. -/
theorem C6_reader_fanout_witness :
    (readerProcess c6ReaderState c6Msg 9).1.default_queue = [c6Msg] ∧
    (readerProcess c6ReaderState c6Msg 9).1.id_queues 0x123 = [c6Msg] ∧
    (readerProcess c6ReaderState c6Msg 9).1.named_id_queues 0x123 =
      [("a", [c6Msg]), ("b", [c6Msg])] ∧
    (readerProcess c6ReaderState c6Msg 9).1.latest_msgs 0x123 = some c6Msg ∧
    (readerProcess c6ReaderState c6Msg 9).1.id_last_seen 0x123 = some 9 ∧
    (readerProcess c6ReaderState c6Msg 9).2 = [7, 8] ∧
    (runCallbacks (readerProcess c6ReaderState c6Msg 9).2 c6Results).map Prod.fst = [7, 8] := by
  obtain ⟨h1, h2, h3, h4, h5, h6, h7, -⟩ :=
    C6_reader_fanout c6ReaderState c6Msg 9 c6Results 0x123 rfl
  refine ⟨by rw [h1]; rfl, by rw [h2]; rfl, by rw [h3]; rfl, h4, h5, ?_, ?_⟩
  · rw [h6]; rfl
  · rw [h7, h6]; rfl

/-! ## Claim C8 — one-shot scheduler semantics -/

/-- C8.  A `MessageTask` with `period = 0` that is running, not paused,
not stopped and within its duration evaluates its payload and sends
exactly one frame on the first loop iteration, then sets `running` to
`False` and the loop exits; a subsequent `stop_message` on its id is a
no-op: it removes the finished task, causes no further send and raises
no error. -/
theorem C8_one_shot (s : TaskState) (clock : Nat → ℚ) (fuel : Nat)
    (hrun : s.running = true) (hpause : s.pause_event_set = true)
    (hstop : s.stop_event = false) (hperiod : s.period = 0)
    (hdur : ∀ d, s.duration = some d → clock 0 ≤ d)
    (hfuel : 1 ≤ fuel) :
    ∃ s', sendLoop clock fuel 0 s = .exited s' ∧
      s'.sends = s.sends ++ [s.payloads s.n_calls] ∧
      s'.running = false ∧
      (taskStop s').sends = s'.sends ∧
      ∀ id, stop_message [(id, s')] id = ([], some (taskStop s')) := by
  obtain ⟨fuel, rfl⟩ : ∃ k, fuel = k + 1 := ⟨fuel - 1, by omega⟩
  have hiter : sendLoopIter s (clock 0) =
      .exited { s with
        n_calls := s.n_calls + 1
        sends := s.sends ++ [s.payloads s.n_calls]
        running := false } := by
    unfold sendLoopIter
    rcases hd : s.duration with _ | d
    · simp [hrun, hpause, hstop, hperiod, hd]
    · have hnd := hdur d hd
      simp [hrun, hpause, hstop, hperiod, hd, not_lt.mpr hnd]
  refine ⟨{ s with
      n_calls := s.n_calls + 1
      sends := s.sends ++ [s.payloads s.n_calls]
      running := false }, ?_, rfl, rfl, rfl, ?_⟩
  · show sendLoop clock (fuel + 1) 0 s = _
    unfold sendLoop
    rw [hiter]
  · intro id
    unfold stop_message
    rw [List.find?_cons_of_pos _ (by simp)]
    simp

/-- Concrete instance of `C8_one_shot`: the one-shot task sends its
payload exactly once and stops running; `stop_message` afterwards only
removes the finished task and adds no send. -/
theorem C8_one_shot_witness :
    (exitedState (sendLoop (fun _ => (0 : ℚ)) 1 0 c8Task)).map TaskState.sends =
      some [[0xDE, 0xAD]] ∧
    (exitedState (sendLoop (fun _ => (0 : ℚ)) 1 0 c8Task)).map TaskState.running =
      some false ∧
    (exitedState (sendLoop (fun _ => (0 : ℚ)) 1 0 c8Task)).map
        (fun t => ((stop_message [(0x321, t)] 0x321).1,
          (stop_message [(0x321, t)] 0x321).2.map TaskState.sends)) =
      some ([], some [[0xDE, 0xAD]]) := by
  obtain ⟨s', hloop, hsends, hrun2, hstopsends, hstopmsg⟩ :=
    C8_one_shot c8Task (fun _ => 0) 1 rfl rfl rfl rfl
      (fun d hd => by cases hd) (by omega)
  have hsends' : s'.sends = [[0xDE, 0xAD]] := by rw [hsends]; rfl
  refine ⟨?_, ?_, ?_⟩
  · rw [hloop]
    show some s'.sends = _
    rw [hsends']
  · rw [hloop]
    show some s'.running = _
    rw [hrun2]
  · rw [hloop]
    show some ((stop_message [(0x321, s')] 0x321).1,
      (stop_message [(0x321, s')] 0x321).2.map TaskState.sends) = _
    rw [hstopmsg 0x321]
    show some ([], some (taskStop s').sends) = _
    rw [hstopsends, hsends']

/-! ## Claim C7 — NRC 0x78 rewait -/

/-- C7.  For a request with service identifier `sid`, a scripted response
sequence of any finite number of pending responses `[7F, X, 78]` followed
by a non-pending response whose first byte is `sid + 0x40` makes
`receive` re-read past every pending response — each re-read passes the
same `timeout` value, which the theorem quantifies over — and makes
`send_and_received` return the final non-pending response, for any
number of empty-retry iterations the wall-clock deadline allows. -/
theorem C7_pending_rewait (n X : Nat) (r : List Nat) (rest : List (List Nat))
    (timeout retries sid : Nat)
    (hr : r ≠ [])
    (hhead : r.getD 0 0 = sid + 0x40)
    (hsid : sid + 0x40 < 256)
    (hnp : ¬ (r ≠ [] ∧ NRC_check r ∧ 2 < r.length ∧ r.getD 2 0 = 0x78)) :
    comReceive timeout (List.replicate n [0x7F, X, 0x78] ++ r :: rest) = (r, rest) ∧
    send_and_received sid timeout retries (List.replicate n [0x7F, X, 0x78] ++ r :: rest) =
      some r := by
  have hrecv : ∀ k, comReceive timeout (List.replicate k [0x7F, X, 0x78] ++ r :: rest) = (r, rest) := by
    intro k
    induction k with
    | zero =>
      show (if r ≠ [] ∧ NRC_check r ∧ 2 < r.length ∧ r.getD 2 0 = 0x78 then
        comReceive timeout rest else (r, rest)) = (r, rest)
      rw [if_neg hnp]
    | succ k ih =>
      rw [List.replicate_succ, List.cons_append]
      show (if ([0x7F, X, 0x78] : List Nat) ≠ [] ∧ NRC_check [0x7F, X, 0x78] ∧
          2 < ([0x7F, X, 0x78] : List Nat).length ∧
          ([0x7F, X, 0x78] : List Nat).getD 2 0 = 0x78 then
        comReceive timeout (List.replicate k [0x7F, X, 0x78] ++ r :: rest)
        else ([0x7F, X, 0x78], List.replicate k [0x7F, X, 0x78] ++ r :: rest)) = (r, rest)
      rw [if_pos ⟨List.cons_ne_nil _ _, rfl, by norm_num, rfl⟩]
      exact ih
  obtain ⟨b, br, rfl⟩ : ∃ b br, r = b :: br := by
    rcases r with _ | ⟨b, br⟩
    · exact absurd rfl hr
    · exact ⟨b, br, rfl⟩
  have hretry : ∀ k,
      comReceiveRetry timeout (List.replicate n [0x7F, X, 0x78] ++ (b :: br) :: rest) k =
        (b :: br, rest) := by
    intro k
    cases k with
    | zero => exact hrecv n
    | succ k =>
      show (match comReceive timeout (List.replicate n [0x7F, X, 0x78] ++ (b :: br) :: rest) with
        | ([], rest2) => comReceiveRetry timeout rest2 k
        | r2 => r2) = (b :: br, rest)
      rw [hrecv n]
  refine ⟨hrecv n, ?_⟩
  have hb : b = sid + 0x40 := hhead
  unfold send_and_received
  rw [hretry retries]
  show (if (b :: br) = [] then none else sidMatches sid (b :: br)) = some (b :: br)
  rw [if_neg (List.cons_ne_nil b br)]
  unfold sidMatches
  rw [if_pos (Or.inr ⟨by omega, by omega⟩)]

/-- Concrete instance of `C7_pending_rewait`, the scenario of the claim:
two pending responses `7F 22 78` followed by `62 F1` make the diagnostic
receive skip both and `send_and_received` return `62 F1`. -/
theorem C7_pending_rewait_witness :
    comReceive 300 [[0x7F, 0x22, 0x78], [0x7F, 0x22, 0x78], [0x62, 0xF1]] =
      ([0x62, 0xF1], ([] : List (List Nat))) ∧
    send_and_received 0x22 300 0 [[0x7F, 0x22, 0x78], [0x7F, 0x22, 0x78], [0x62, 0xF1]] =
      some [0x62, 0xF1] :=
  C7_pending_rewait 2 0x22 [0x62, 0xF1] [] 300 0 0x22 (by decide) (by decide)
    (by decide) (by decide)

/-! ## Claim C3 — E2E CRC -/

/-- Masking with 0xFFFF is reduction modulo 2^16. -/
theorem and_mask16_eq_mod (a : Nat) : a &&& 65535 = a % 65536 := by
  have h : (65535 : Nat) = 2 ^ 16 - 1 := by norm_num
  rw [h, Nat.and_pow_two_sub_one_eq_mod]

/-- Bit 15 survives the 16-bit mask. -/
theorem mask16_testBit15 (a : Nat) : (a &&& 65535).testBit 15 = a.testBit 15 := by
  rw [Nat.testBit_and]
  have h : Nat.testBit 65535 15 = true := by decide
  rw [h, Bool.and_true]

/-- Shifting left by one commutes with the 16-bit mask (up to masking the
result again). -/
theorem shiftLeft_mask16 (a : Nat) :
    ((a &&& 65535) <<< 1) &&& 65535 = (a <<< 1) &&& 65535 := by
  rw [and_mask16_eq_mod, and_mask16_eq_mod, and_mask16_eq_mod, Nat.shiftLeft_eq,
    Nat.shiftLeft_eq]
  omega

/-- Masking twice is masking once. -/
theorem and_mask16_idem (a : Nat) : (a &&& 65535) &&& 65535 = a &&& 65535 := by
  rw [Nat.and_assoc, Nat.and_self]

/-- The unmasked CRC step of the source agrees with the masked
specification step on the low 16 bits: the high garbage bits the source
lets accumulate never feed back. -/
theorem crc16_round_mask (a : Nat) :
    crc16_round a &&& 65535 = crc16_spec_round (a &&& 65535) := by
  unfold crc16_round crc16_spec_round
  rw [mask16_testBit15]
  by_cases h : a.testBit 15
  · rw [if_pos h, if_pos h, Nat.and_xor_distrib_right, Nat.and_xor_distrib_right,
      shiftLeft_mask16]
  · rw [if_neg h, if_neg h, shiftLeft_mask16]

/-- Iterated CRC steps agree on the low 16 bits. -/
theorem crc16_round_iterate_mask (k : Nat) (a : Nat) :
    (crc16_round^[k] a) &&& 65535 = crc16_spec_round^[k] (a &&& 65535) := by
  induction k generalizing a with
  | zero => rfl
  | succ k ih =>
    rw [Function.iterate_succ_apply', Function.iterate_succ_apply', crc16_round_mask, ih]

/-- The byte update of the source agrees with the masked specification
byte update on the low 16 bits. -/
theorem crc16_byte_mask (a b : Nat) :
    crc16_byte a b &&& 65535 = crc16_spec_byte (a &&& 65535) b := by
  unfold crc16_byte crc16_spec_byte
  rw [crc16_round_iterate_mask]
  congr 1
  rw [Nat.and_xor_distrib_right, Nat.and_xor_distrib_right, and_mask16_idem]

/-- Folding the byte update over the data agrees on the low 16 bits. -/
theorem crc16_fold_mask (l : List Nat) : ∀ a : Nat,
    (l.foldl crc16_byte a) &&& 65535 = l.foldl crc16_spec_byte (a &&& 65535) := by
  induction l with
  | nil => intro a; rfl
  | cons b l ih =>
    intro a
    rw [List.foldl_cons, List.foldl_cons, ih, crc16_byte_mask]

/-- The source CRC equals the specification CRC: polynomial 0x1021,
initial value 0xFFFF, MSB-first, no reflection, no final xor, 16-bit
width. -/
theorem crc16_canfd_eq_spec (l : List Nat) : crc16_canfd l = crc16_spec l := by
  unfold crc16_canfd crc16_spec
  rw [Nat.xor_zero, crc16_fold_mask]
  rfl

/-- The specification CRC reproduces the published CRC-16/CCITT-FALSE
check value: the ASCII digits of 123456789 hash to 0x29B1. -/
theorem crc16_spec_check_value :
    crc16_spec [0x31, 0x32, 0x33, 0x34, 0x35, 0x36, 0x37, 0x38, 0x39] = 0x29B1 := by
  decide

/-- C3.  For every non-negative message id `mid` and byte string `b` of
at least two bytes, `crc_calculate(mid, b)` is the CRC-16 with
polynomial 0x1021, initial value 0xFFFF, MSB-first, no reflection and no
final xor, computed over `b[2:]` followed by the two bytes
`[suffix & 0xFF, (suffix >> 8) & 0xFF]` with
`suffix = (0xF800 + mid) & 0x0FFF`. -/
theorem C3_crc_calculate_spec (mid : Nat) (b : List Nat) (h2 : 2 ≤ b.length) :
    crc_calculate mid b = some (crc16_spec (b.drop 2 ++
      [((0xF800 + mid) &&& 0x0FFF) &&& 0xFF,
        (((0xF800 + mid) &&& 0x0FFF) >>> 8) &&& 0xFF])) := by
  unfold crc_calculate build_crc_payload
  rw [if_neg (by omega)]
  rw [Option.map_some']
  rw [crc16_canfd_eq_spec]

/-- Concrete instance of `C3_crc_calculate_spec` at `mid = 0x7B3` and a
three-byte frame, with both sides evaluating to 0x762D. -/
theorem C3_crc_calculate_spec_witness :
    crc_calculate 0x7B3 [0, 0, 0] = some (crc16_spec ([0, 0, 0].drop 2 ++
      [((0xF800 + 0x7B3) &&& 0x0FFF) &&& 0xFF,
        (((0xF800 + 0x7B3) &&& 0x0FFF) >>> 8) &&& 0xFF])) ∧
    crc_calculate 0x7B3 [0, 0, 0] = some 0x762D :=
  ⟨C3_crc_calculate_spec 0x7B3 [0, 0, 0] (by norm_num), by decide⟩

/-! ## Claim C5 — Flow Control waiting during a segmented send -/

/-- No Flow Control frame arriving before the deadline means the timed
pop gives nothing. -/
theorem popFCTimed_none (deadline : Nat) (evs : List TimedFrame)
    (h : ∀ e ∈ evs, is_flow_control_frame e.2 → deadline ≤ e.1) :
    popFCTimed deadline evs = none := by
  induction evs with
  | nil => rfl
  | cons e rest ih =>
    show (if is_flow_control_frame e.2 && decide (e.1 < deadline) then some (e, rest)
      else (popFCTimed deadline rest).map (fun p => (p.1, e :: p.2))) = none
    have hcond : (is_flow_control_frame e.2 && decide (e.1 < deadline)) = false := by
      by_cases hfc : is_flow_control_frame e.2
      · have := h e (List.mem_cons_self e rest) hfc
        simp [hfc, Nat.not_lt.mpr this]
      · simp [Bool.eq_false_iff.mpr hfc]
    rw [hcond]
    simp [ih (fun x hx hfc => h x (List.mem_cons_of_mem e hx) hfc)]

/-- Equation: the FC wait returns nothing once the deadline has passed. -/
theorem waitFCAux_expired (timeout fuel : Nat) (evs : List TimedFrame) (now : Nat)
    (h : timeout ≤ now) : waitFCAux timeout fuel evs now = none := by
  unfold waitFCAux
  rw [if_pos h]

/-- Equation: the FC wait returns nothing when no FC frame arrives
within the deadline. -/
theorem waitFCAux_pop_none (timeout fuel : Nat) (evs : List TimedFrame) (now : Nat)
    (h : ¬ timeout ≤ now) (hp : popFCTimed timeout evs = none) :
    waitFCAux timeout fuel evs now = none := by
  unfold waitFCAux
  rw [if_neg h, hp]

/-- Equation: a WAIT frame keeps the wait going on the remaining buffer
with the clock advanced and the same absolute deadline. -/
theorem waitFCAux_pop_wait (timeout fuel : Nat) (evs : List TimedFrame) (now t : Nat)
    (f : List Nat) (rest : List TimedFrame)
    (h : ¬ timeout ≤ now) (hp : popFCTimed timeout evs = some ((t, f), rest))
    (hfs : f.getD 0 0 &&& 0x3 = FCFS_WAIT) :
    waitFCAux timeout (fuel + 1) evs now = waitFCAux timeout fuel rest (max now t) := by
  conv_lhs => unfold waitFCAux
  rw [if_neg h, hp]
  simp only [extractCF]
  rw [hfs]
  simp

/-- Equation: an OVFLW frame aborts the wait. -/
theorem waitFCAux_pop_ovflw (timeout fuel : Nat) (evs : List TimedFrame) (now t : Nat)
    (f : List Nat) (rest : List TimedFrame)
    (h : ¬ timeout ≤ now) (hp : popFCTimed timeout evs = some ((t, f), rest))
    (hfs : f.getD 0 0 &&& 0x3 = FCFS_OVFLW) :
    waitFCAux timeout fuel evs now = none := by
  unfold waitFCAux
  rw [if_neg h, hp]
  simp only [extractCF]
  rw [hfs]
  simp [FCFS_WAIT, FCFS_OVFLW]

/-- Equation: any other flow status returns the settings carried by the
frame. -/
theorem waitFCAux_pop_final (timeout fuel : Nat) (evs : List TimedFrame) (now t : Nat)
    (f : List Nat) (rest : List TimedFrame)
    (h : ¬ timeout ≤ now) (hp : popFCTimed timeout evs = some ((t, f), rest))
    (hfs1 : ¬ f.getD 0 0 &&& 0x3 = FCFS_WAIT) (hfs2 : ¬ f.getD 0 0 &&& 0x3 = FCFS_OVFLW) :
    waitFCAux timeout fuel evs now =
      some { block_size := f.getD 1 0, st_min := f.getD 2 0,
             flow_status := f.getD 0 0 &&& 0x3 } := by
  unfold waitFCAux
  rw [if_neg h, hp]
  simp only [extractCF]
  rw [if_neg (by simpa using hfs1), if_neg (by simpa using hfs2)]

/-- C5.  Every wait for a Flow Control frame during a segmented send is
bounded by `flow_control_timeout_ms`: (i) if no FC frame arrives before
the deadline the wait yields nothing; (ii) if the first FC frame within
the deadline is OVFLW the wait yields nothing; (iii) a WAIT frame makes
the wait continue under the *same* deadline — a CTS arriving only at or
after the original deadline is not taken, even though a WAIT was
received in time; (iv) a CTS frame within the deadline (after a WAIT)
returns exactly the BS and STmin bytes carried by that frame, which the
send installs for the subsequent block; and (v) a send whose payload
needs segmentation returns `False` whenever its Flow Control wait yields
nothing (expiry or OVFLW). -/
theorem C5_flow_control_wait (timeout : Nat) :
    (∀ evs now, (∀ e ∈ evs, is_flow_control_frame e.2 → timeout ≤ e.1) →
      wait_for_flow_control timeout evs now = none) ∧
    (∀ evs now t f rest, popFCTimed timeout evs = some ((t, f), rest) →
      f.getD 0 0 &&& 0x3 = FCFS_OVFLW →
      wait_for_flow_control timeout evs now = none) ∧
    (∀ t1 t2 bs stm bs2 stm2, t1 < timeout → timeout ≤ t2 →
      wait_for_flow_control timeout
        [(t1, [0x31, bs, stm, 0, 0, 0, 0, 0]), (t2, [0x30, bs2, stm2, 0, 0, 0, 0, 0])] 0 =
        none) ∧
    (∀ t1 t2 bs stm bs2 stm2, t1 < timeout → t2 < timeout →
      wait_for_flow_control timeout
        [(t1, [0x31, bs, stm, 0, 0, 0, 0, 0]), (t2, [0x30, bs2, stm2, 0, 0, 0, 0, 0])] 0 =
        some { block_size := bs2, st_min := stm2, flow_status := 0 }) ∧
    (∀ chunk isFD padding data w0 fcrest, (convertFF data chunk).2 ≠ [] →
      wait_for_flow_control timeout w0 0 = none →
      sessionSendCore chunk isFD padding timeout data (w0 :: fcrest) =
        (false, [writeBusData isFD padding (convertFF data chunk).1], 1)) := by
  refine ⟨?_, ?_, ?_, ?_, ?_⟩
  · intro evs now h
    by_cases hn : timeout ≤ now
    · exact waitFCAux_expired timeout evs.length evs now hn
    · exact waitFCAux_pop_none timeout evs.length evs now hn (popFCTimed_none timeout evs h)
  · intro evs now t f rest hpop hfs
    by_cases hn : timeout ≤ now
    · exact waitFCAux_expired timeout evs.length evs now hn
    · exact waitFCAux_pop_ovflw timeout evs.length evs now t f rest hn hpop hfs
  · intro t1 t2 bs stm bs2 stm2 h1 h2
    have hpop1 : popFCTimed timeout
        [(t1, [0x31, bs, stm, 0, 0, 0, 0, 0]), (t2, [0x30, bs2, stm2, 0, 0, 0, 0, 0])] =
        some ((t1, [0x31, bs, stm, 0, 0, 0, 0, 0]),
          [(t2, [0x30, bs2, stm2, 0, 0, 0, 0, 0])]) := by
      simp [popFCTimed, is_flow_control_frame, h1]
    show waitFCAux timeout 2 _ 0 = none
    rw [waitFCAux_pop_wait timeout 1 _ 0 t1 _ _ (by omega) hpop1
      (by show (49 : Nat) &&& 3 = FCFS_WAIT; decide)]
    exact waitFCAux_pop_none timeout 1 _ (max 0 t1) (by omega)
      (popFCTimed_none timeout _ (by
        intro e he hfc
        rw [List.mem_singleton] at he
        rw [he]
        exact h2))
  · intro t1 t2 bs stm bs2 stm2 h1 h2
    have hpop1 : popFCTimed timeout
        [(t1, [0x31, bs, stm, 0, 0, 0, 0, 0]), (t2, [0x30, bs2, stm2, 0, 0, 0, 0, 0])] =
        some ((t1, [0x31, bs, stm, 0, 0, 0, 0, 0]),
          [(t2, [0x30, bs2, stm2, 0, 0, 0, 0, 0])]) := by
      simp [popFCTimed, is_flow_control_frame, h1]
    have hpop2 : popFCTimed timeout [(t2, [0x30, bs2, stm2, 0, 0, 0, 0, 0])] =
        some ((t2, [0x30, bs2, stm2, 0, 0, 0, 0, 0]), []) := by
      simp [popFCTimed, is_flow_control_frame, h2]
    show waitFCAux timeout 2 _ 0 = _
    rw [waitFCAux_pop_wait timeout 1 _ 0 t1 _ _ (by omega) hpop1
      (by show (49 : Nat) &&& 3 = FCFS_WAIT; decide)]
    rw [waitFCAux_pop_final timeout 1 _ (max 0 t1) t2 _ _ (by omega) hpop2
      (by show ¬ (48 : Nat) &&& 3 = FCFS_WAIT; decide)
      (by show ¬ (48 : Nat) &&& 3 = FCFS_OVFLW; decide)]
    show some (FlowControlSettings.mk bs2 stm2 ((48 : Nat) &&& 3)) = _
    rw [show (48 : Nat) &&& 3 = 0 by decide]
  · intro chunk isFD padding data w0 fcrest hrem hwait
    rcases hconv : convertFF data chunk with ⟨fr, rm⟩
    rw [hconv] at hrem
    simp only at hrem
    unfold sessionSendCore
    rw [hconv]
    show (if rm = [] then (true, [writeBusData isFD padding fr], 0)
      else match wait_for_flow_control timeout ((w0 :: fcrest).headD []) 0 with
        | none => (false, [writeBusData isFD padding fr], 1)
        | some fc =>
          match sendCFLoop chunk isFD padding timeout rm.length rm 0 0 fc.block_size
              fc.st_min (w0 :: fcrest).tail with
          | (ok, frames, waits) => (ok, writeBusData isFD padding fr :: frames, 1 + waits)) =
      (false, [writeBusData isFD padding fr], 1)
    rw [if_neg hrem]
    rw [show ((w0 :: fcrest).headD []) = w0 from rfl, hwait]

/-- Concrete instance of `C5_flow_control_wait` with the default
1000 ms timeout: (i) a CTS arriving at 1500 ms is not taken; (ii) an
immediate OVFLW aborts; (iii) a WAIT at 100 ms does not extend the
deadline for a CTS arriving at 1000 ms; (iv) a WAIT at 100 ms followed
by a CTS at 200 ms installs BS = 4 and STmin = 2 from the CTS frame;
(v) a 10-byte segmented send with no FC answer returns false after
emitting only the First Frame. -/
theorem C5_flow_control_wait_witness :
    wait_for_flow_control 1000 [(1500, [0x30, 4, 2, 0, 0, 0, 0, 0])] 0 = none ∧
    wait_for_flow_control 1000 [(10, [0x32, 0, 0, 0, 0, 0, 0, 0])] 0 = none ∧
    wait_for_flow_control 1000
      [(100, [0x31, 0, 0, 0, 0, 0, 0, 0]), (1000, [0x30, 4, 2, 0, 0, 0, 0, 0])] 0 = none ∧
    wait_for_flow_control 1000
      [(100, [0x31, 0, 0, 0, 0, 0, 0, 0]), (200, [0x30, 4, 2, 0, 0, 0, 0, 0])] 0 =
      some { block_size := 4, st_min := 2, flow_status := 0 } ∧
    sessionSendCore 8 false 0 1000 (List.replicate 10 0x55) [[]] =
      (false, [[0x10, 0x0A, 0x55, 0x55, 0x55, 0x55, 0x55, 0x55]], 1) := by
  obtain ⟨h1, h2, h3, h4, h5⟩ := C5_flow_control_wait 1000
  refine ⟨?_, ?_, ?_, ?_, ?_⟩
  · exact h1 [(1500, [0x30, 4, 2, 0, 0, 0, 0, 0])] 0 (by decide)
  · exact h2 [(10, [0x32, 0, 0, 0, 0, 0, 0, 0])] 0 10 [0x32, 0, 0, 0, 0, 0, 0, 0] []
      (by decide) (by decide)
  · exact h3 100 1000 0 0 4 2 (by decide) (by decide)
  · exact h4 100 200 0 0 4 2 (by decide) (by decide)
  · rw [h5 8 false 0 (List.replicate 10 0x55) [] [] (by decide) (by decide)]
    decide

/-! ## Claim C4 — Single Frame rule -/

/-- C4, counterexample to the claim as stated.  On CAN-FD with chunk
length 64 the claim promises success without a Flow Control wait for
every `len(D) ≤ chunk_length - 1 = 63`, with the frame SF-encoded as
`[len(D), …D…]`.  The code disagrees twice: at `len(D) = 63` the
conversion leaves one byte over, so the send performs a Flow Control
wait and fails when no FC answer arrives; and for `8 ≤ len(D)` the
single emitted frame starts with the short First-Frame header byte 0x10,
not with `len(D)`. -/
theorem C4_sf_rule_counterexample :
    (sessionSendCore 64 true 0 1000 (List.replicate 63 0x11) [[]]).1 = false ∧
    (sessionSendCore 64 true 0 1000 (List.replicate 63 0x11) [[]]).2.2 = 1 ∧
    (convertFF (List.replicate 63 0x11) 64).2 ≠ [] ∧
    (convertFF (List.replicate 8 0x22) 64).1.getD 0 0 = 0x10 := by decide

/-- Conversion of a payload of at most 7 bytes: a zero-padded Single
Frame and nothing left over. -/
theorem convertFF_le7 (D : List Nat) (chunk : Nat) (h7 : D.length ≤ 7) :
    convertFF D chunk = ([D.length] ++ D ++ List.replicate (7 - D.length) 0, []) := by
  unfold convertFF
  rw [if_pos h7]

/-- Conversion of an 8–62 byte payload at chunk length 64: the whole
payload fits behind the short First-Frame header and nothing is left
over. -/
theorem convertFF_short_fd (D : List Nat) (h8 : 8 ≤ D.length) (h62 : D.length ≤ 62) :
    convertFF D 64 =
      ([0x10 ||| ((D.length >>> 8) &&& 0xF), 0xFF &&& D.length] ++ D, []) := by
  unfold convertFF
  rw [if_neg (by omega), if_pos (by omega)]
  unfold slice1stChunk
  have hlen : ([0x10 ||| ((D.length >>> 8) &&& 0xF), 0xFF &&& D.length] ++ D).length ≤ 64 := by
    simp only [List.length_append, List.length_cons, List.length_nil]
    omega
  show (List.take 64 ([0x10 ||| ((D.length >>> 8) &&& 0xF), 0xFF &&& D.length] ++ D),
    List.drop 64 ([0x10 ||| ((D.length >>> 8) &&& 0xF), 0xFF &&& D.length] ++ D)) = _
  rw [List.take_of_length_le hlen, List.drop_eq_nil_of_le hlen]

/-- A conversion with no remainder makes the send succeed with exactly
one bus frame and no Flow Control wait. -/
theorem sessionSendCore_sf (chunk : Nat) (isFD : Bool) (pad timeout : Nat)
    (D f : List Nat) (fcW : List (List TimedFrame))
    (hconv : convertFF D chunk = (f, [])) :
    sessionSendCore chunk isFD pad timeout D fcW = (true, [writeBusData isFD pad f], 0) := by
  unfold sessionSendCore
  simp [hconv]

/-- C4 (amended).  The TP send returns success after emitting exactly
one frame and without any Flow Control wait whenever `len(D) ≤ 7`
(classical or FD; the frame is the SF `[len(D), …D…]` zero-padded to 8
bytes) or, on CAN-FD with chunk length 64, whenever
`len(D) ≤ chunk_length - 2 = 62`; in the FD case with `8 ≤ len(D)` the
single frame carries the short First-Frame header, not an SF header.
Concretely, sending `22 F1 87` over classical CAN puts exactly one
frame `[0x03, 0x22, 0xF1, 0x87, 0, 0, 0, 0]` on the bus and returns
true. -/
theorem C4_sf_rule_amended (pad timeout : Nat) :
    (∀ (D : List Nat) (fcW : List (List TimedFrame)), D.length ≤ 7 →
      sessionSendCore 8 false pad timeout D fcW =
        (true, [[D.length] ++ D ++ List.replicate (7 - D.length) 0], 0)) ∧
    (∀ (D : List Nat) (fcW : List (List TimedFrame)), D.length ≤ 7 →
      sessionSendCore 64 true pad timeout D fcW =
        (true, [writeBusData true pad ([D.length] ++ D ++ List.replicate (7 - D.length) 0)], 0)) ∧
    (∀ (D : List Nat) (fcW : List (List TimedFrame)), 8 ≤ D.length → D.length ≤ 62 →
      sessionSendCore 64 true pad timeout D fcW =
        (true, [writeBusData true pad
          ([0x10 ||| ((D.length >>> 8) &&& 0xF), 0xFF &&& D.length] ++ D)], 0)) ∧
    sessionSend 8 false 0 1000 ['2', '2', ' ', 'F', '1', ' ', '8', '7'] [] =
      some (true, [[0x03, 0x22, 0xF1, 0x87, 0, 0, 0, 0]], 0) := by
  refine ⟨?_, ?_, ?_, by decide⟩
  · intro D fcW h7
    rw [sessionSendCore_sf 8 false pad timeout D _ fcW (convertFF_le7 D 8 h7)]
    rfl
  · intro D fcW h7
    rw [sessionSendCore_sf 64 true pad timeout D _ fcW (convertFF_le7 D 64 h7)]
  · intro D fcW h8 h62
    rw [sessionSendCore_sf 64 true pad timeout D _ fcW (convertFF_short_fd D h8 h62)]

/-- Concrete instance of `C4_sf_rule_amended`: the S1 scenario frame on
classical CAN, and a 10-byte FD payload sent as one frame with the
short First-Frame header, padded to the 12-byte DLC step with the fill
byte 0xAA. -/
theorem C4_sf_rule_amended_witness :
    sessionSendCore 8 false 0 1000 [0x22, 0xF1, 0x87] [] =
      (true, [[0x03, 0x22, 0xF1, 0x87, 0, 0, 0, 0]], 0) ∧
    sessionSendCore 64 true 0xAA 1000
        [1, 2, 3, 4, 5, 6, 7, 8, 9, 10] [] =
      (true, [[0x10, 0x0A, 1, 2, 3, 4, 5, 6, 7, 8, 9, 10]], 0) := by
  constructor
  · rw [(C4_sf_rule_amended 0 1000).1 [0x22, 0xF1, 0x87] [] (by decide)]
    decide
  · rw [(C4_sf_rule_amended 0xAA 1000).2.2.1 [1, 2, 3, 4, 5, 6, 7, 8, 9, 10] []
      (by decide) (by decide)]
    decide

/-! ## Claim C1 — TP round trip -/

/-- First Frame of a 256-byte all-zero payload: the short form with a
zero low length byte. -/
theorem convertFF_256_zeros :
    convertFF (List.replicate 256 0) 8 =
      ([0x11, 0, 0, 0, 0, 0, 0, 0], List.replicate 250 0) := by
  unfold convertFF
  rw [if_neg (by simp), if_pos (by simp)]
  unfold slice1stChunk
  constructor

/-- Equation for the segmented-send entry: when the conversion leaves a
remainder and the first Flow Control wait yields settings `fc`, the send
runs the segmentation loop after the first frame. -/
theorem sessionSendCore_ff (chunk : Nat) (isFD : Bool) (pad timeout : Nat)
    (D f r : List Nat) (w0 : List TimedFrame) (fcs : List (List TimedFrame))
    (fc : FlowControlSettings)
    (hconv : convertFF D chunk = (f, r)) (hr : r ≠ [])
    (hwait : wait_for_flow_control timeout w0 0 = some fc) :
    sessionSendCore chunk isFD pad timeout D (w0 :: fcs) =
      ((sendCFLoop chunk isFD pad timeout r.length r 0 0 fc.block_size fc.st_min fcs).1,
        writeBusData isFD pad f ::
          (sendCFLoop chunk isFD pad timeout r.length r 0 0 fc.block_size fc.st_min fcs).2.1,
        1 + (sendCFLoop chunk isFD pad timeout r.length r 0 0 fc.block_size fc.st_min fcs).2.2) := by
  unfold sessionSendCore
  rw [hconv]
  show (if r = [] then (true, [writeBusData isFD pad f], 0)
    else match wait_for_flow_control timeout ((w0 :: fcs).headD []) 0 with
      | none => (false, [writeBusData isFD pad f], 1)
      | some fc2 =>
        match sendCFLoop chunk isFD pad timeout r.length r 0 0 fc2.block_size fc2.st_min
            (w0 :: fcs).tail with
        | (ok, frames, waits) => (ok, writeBusData isFD pad f :: frames, 1 + waits)) = _
  rw [if_neg hr]
  rw [show ((w0 :: fcs).headD []) = w0 from rfl, hwait]
  show (match sendCFLoop chunk isFD pad timeout r.length r 0 0 fc.block_size fc.st_min fcs with
    | (ok, frames, waits) => (ok, writeBusData isFD pad f :: frames, 1 + waits)) = _
  rcases sendCFLoop chunk isFD pad timeout r.length r 0 0 fc.block_size fc.st_min fcs
    with ⟨ok, frames, waits⟩
  rfl

/-- Equation for the receive of a First Frame: the per-frame bookkeeping
reduces to the Consecutive-Frame accumulation loop. -/
theorem sessionReceive_ff (chunk : Nat) (rx : FlowControlSettings) (ff : List Nat)
    (buffer : List (List Nat)) (rest : List (List Nat)) (e : Int) (total : Nat)
    (d0 : List Nat)
    (hpop : popMatching is_transport_payload buffer = some (ff, rest))
    (hpci : pci_type ff = 1)
    (hexp : expectedFrames ff chunk = (e, total, d0)) :
    sessionReceive chunk rx buffer =
      (match receiveCFLoop total rest.length rest d0 with
        | none => ([], [build_payload rx])
        | some full => (full.take total, [build_payload rx])) := by
  unfold sessionReceive
  rw [hpop]
  show (if (pci_type ff == 0x0) = true then
      ((ff.drop 1).take (ff.getD 0 0 &&& 0x0F), [])
    else if (pci_type ff != 0x1) = true then ([], [])
    else match expectedFrames ff chunk with
      | (_, total_length, data) =>
        match receiveCFLoop total_length rest.length rest data with
        | none => ([], [build_payload rx])
        | some full => (full.take total_length, [build_payload rx])) = _
  rw [hpci]
  norm_num
  rw [hexp]

/-- The segmented send of the 256-byte all-zero payload puts the First
Frame `[0x11, 0, …]` first on the bus. -/
theorem send_256_zeros_head :
    ∃ cfs, (sessionSendCore 8 false 0 1000 (List.replicate 256 0)
      [[(0, [0x30, 0x00, 0x00, 0, 0, 0, 0, 0])]]).2.1 =
      [0x11, 0, 0, 0, 0, 0, 0, 0] :: cfs := by
  rw [sessionSendCore_ff 8 false 0 1000 (List.replicate 256 0) [0x11, 0, 0, 0, 0, 0, 0, 0]
    (List.replicate 250 0) [(0, [0x30, 0x00, 0x00, 0, 0, 0, 0, 0])] []
    { block_size := 0, st_min := 0, flow_status := 0 }
    convertFF_256_zeros (by simp) (by decide)]
  exact ⟨_, rfl⟩

/-- Receiving a buffer headed by the misleading First Frame
`[0x11, 0, …]` returns the empty payload: the receiver takes the zero
second byte for the escape length form, reads a total length of 0 from
the zero data bytes, and truncates everything away. -/
theorem receive_ff_0x11_zero (cfs : List (List Nat)) :
    sessionReceive 8 {} ([0x11, 0, 0, 0, 0, 0, 0, 0] :: cfs) =
      ([], [[0x30, 0x00, 0x14, 0, 0, 0, 0, 0]]) := by
  rw [sessionReceive_ff 8 {} [0x11, 0, 0, 0, 0, 0, 0, 0] _ cfs 0 0 [0, 0, 0]
    (by unfold popMatching; rw [if_pos (by decide)]) (by decide) (by decide)]
  rw [show receiveCFLoop 0 cfs.length cfs [0, 0, 0] = some [0, 0, 0] from by
    unfold receiveCFLoop
    rw [if_pos (by omega)]]
  decide

/-! ### The round trip at the good lengths

The segmented send and the receive are inverse on every payload of 8 to
4095 bytes whose length is not a multiple of 256, so the failure above is
exactly the 256-multiple lengths (the escape-form confusion) plus nothing
else in that range. -/

/-- Equation for `cfFrames` on an exhausted remainder. -/
theorem cfFrames_nil (fuel SN : Nat) : cfFrames fuel SN [] = [] := by
  cases fuel <;> rfl

/-- Equation for `cfFrames` on a non-empty remainder. -/
theorem cfFrames_cons (fuel SN a : Nat) (l : List Nat) :
    cfFrames (fuel + 1) SN (a :: l) =
      (nextCF (increaseSN SN) (a :: l) 8).1 ::
        cfFrames fuel (increaseSN SN) (nextCF (increaseSN SN) (a :: l) 8).2 := rfl

/-- Closed form of `nextCF` at chunk length 8: the header byte followed
by the first seven bytes of the zero-padded remainder, and the rest. -/
theorem nextCF_eight (SN : Nat) (d : List Nat) :
    nextCF SN d 8 =
      ((0x20 ||| SN) :: (d ++ List.replicate (7 - d.length) 0).take 7,
        (d ++ List.replicate (7 - d.length) 0).drop 7) := by
  unfold nextCF slice1stChunk
  show (((0x20 ||| SN) :: (d ++ List.replicate (7 - d.length) 0)).take 8,
      ((0x20 ||| SN) :: (d ++ List.replicate (7 - d.length) 0)).drop 8) = _
  rw [show (8 : Nat) = 7 + 1 from rfl, List.take_succ_cons, List.drop_succ_cons]

/-- Sequence numbers stay within a nibble. -/
theorem increaseSN_le (SN : Nat) : increaseSN SN ≤ 15 := by
  unfold increaseSN; split <;> omega

/-- Every frame built by `nextCF` is recognised as a Consecutive Frame. -/
theorem cf_header_is_consecutive (SN : Nat) (h : SN ≤ 15) (xs : List Nat) :
    is_consecutive_frame ((0x20 ||| SN) :: xs) = true := by
  have h2 : ∀ s : Fin 16, ((0x20 ||| s.val) >>> 4 == 0x2) = true := by decide
  show ((0x20 ||| SN) >>> 4 == 0x2) = true
  exact h2 ⟨SN, by omega⟩

/-- The accumulation loop stops as soon as the data reaches the total
length. -/
theorem receiveCFLoop_done (total fuel : Nat) (buf : List (List Nat)) (data : List Nat)
    (h : total ≤ data.length) :
    receiveCFLoop total fuel buf data = some data := by
  unfold receiveCFLoop
  rw [if_pos h]

/-- One iteration of the accumulation loop on a buffer headed by a
Consecutive Frame. -/
theorem receiveCFLoop_step (total fuel : Nat) (f : List Nat) (rest : List (List Nat))
    (data : List Nat) (hlt : data.length < total) (hf : is_consecutive_frame f = true) :
    receiveCFLoop total (fuel + 1) (f :: rest) data =
      receiveCFLoop total fuel rest (data ++ f.drop 1) := by
  conv_lhs => unfold receiveCFLoop
  rw [if_neg (by omega)]
  show (match popMatching is_consecutive_frame (f :: rest) with
      | none => none
      | some (cf, rest2) => receiveCFLoop total fuel rest2 (data ++ cf.drop 1)) = _
  conv_lhs => unfold popMatching
  rw [if_pos hf]

/-- Feeding the Consecutive Frames of `cfFrames` into the accumulation
loop succeeds and reproduces the remainder up to the total length, for
any starting data that still needs at most the remainder. -/
theorem receiveCFLoop_cfFrames :
    ∀ (fuel : Nat) (remain data : List Nat) (SN total : Nat),
      remain.length ≤ fuel →
      data.length < total →
      total ≤ data.length + remain.length →
      ∃ full,
        receiveCFLoop total (cfFrames fuel SN remain).length (cfFrames fuel SN remain) data
          = some full ∧ full.take total = (data ++ remain).take total := by
  intro fuel
  induction fuel with
  | zero =>
    intro remain data SN total h1 h2 h3
    exact absurd h2 (by omega)
  | succ fuel ih =>
    intro remain data SN total h1 h2 h3
    cases remain with
    | nil =>
      simp only [List.length_nil] at h3
      exact absurd h2 (by omega)
    | cons a l =>
      rw [cfFrames_cons]
      simp only [nextCF_eight]
      rw [List.length_cons,
        receiveCFLoop_step _ _ _ _ _ h2
          (cf_header_is_consecutive _ (increaseSN_le SN) _)]
      have hdrop1 :
          (((0x20 ||| increaseSN SN) ::
            ((a :: l) ++ List.replicate (7 - (a :: l).length) 0).take 7).drop 1)
            = ((a :: l) ++ List.replicate (7 - (a :: l).length) 0).take 7 := rfl
      rw [hdrop1]
      have hplen : ((a :: l) ++ List.replicate (7 - (a :: l).length) 0).length
          = (a :: l).length + (7 - (a :: l).length) := by
        rw [List.length_append, List.length_replicate]
      have hchunk : (((a :: l) ++ List.replicate (7 - (a :: l).length) 0).take 7).length = 7 := by
        rw [List.length_take]
        omega
      by_cases hcase : total ≤ data.length + 7
      · refine ⟨data ++ ((a :: l) ++ List.replicate (7 - (a :: l).length) 0).take 7,
          receiveCFLoop_done _ _ _ _ (by simp only [List.length_append, hchunk]; omega), ?_⟩
        conv_lhs => rw [List.take_append_eq_append_take]
        conv_rhs => rw [List.take_append_eq_append_take]
        congr 1
        rw [List.take_take]
        have hm : min (total - data.length) 7 = total - data.length := by omega
        rw [hm, List.take_append_of_le_length (by simp only [List.length_cons] at h3 ⊢; omega)]
      · have h7 : 7 < (a :: l).length := by
          simp only [List.length_cons] at h3 ⊢
          omega
        have hpadeq : (a :: l) ++ List.replicate (7 - (a :: l).length) 0 = a :: l := by
          have hz : 7 - (a :: l).length = 0 := by omega
          rw [hz]
          simp
        rw [hpadeq]
        have hlen' : ((a :: l).drop 7).length ≤ fuel := by
          rw [List.length_drop]
          simp only [List.length_cons] at h1 ⊢
          omega
        obtain ⟨full, hfull, htake⟩ :=
          ih ((a :: l).drop 7) (data ++ (a :: l).take 7) (increaseSN SN) total hlen'
            (by rw [List.length_append, List.length_take]; omega)
            (by rw [List.length_append, List.length_take, List.length_drop]; omega)
        refine ⟨full, hfull, ?_⟩
        rw [htake, List.append_assoc, List.take_append_drop]

/-- With block size 0 the segmentation loop never waits again and emits
exactly the frames of `cfFrames`, succeeding. -/
theorem sendCFLoop_bs0 :
    ∀ (fuel : Nat) (remain : List Nat) (SN fib stm : Nat) (fcs : List (List TimedFrame)),
      remain.length ≤ fuel →
      sendCFLoop 8 false 0 1000 fuel remain SN fib 0 stm fcs
        = (true, cfFrames fuel SN remain, 0) := by
  intro fuel
  induction fuel with
  | zero =>
    intro remain SN fib stm fcs h1
    cases remain with
    | nil => rfl
    | cons a l => simp at h1
  | succ fuel ih =>
    intro remain SN fib stm fcs h1
    cases remain with
    | nil => rfl
    | cons a l =>
      have hlen : ((nextCF (increaseSN SN) (a :: l) 8).2).length ≤ fuel := by
        rw [nextCF_eight]
        simp only [List.length_drop, List.length_append, List.length_replicate,
          List.length_cons]
        simp only [List.length_cons] at h1
        omega
      have hstep : sendCFLoop 8 false 0 1000 (fuel + 1) (a :: l) SN fib 0 stm fcs
          = ((sendCFLoop 8 false 0 1000 fuel (nextCF (increaseSN SN) (a :: l) 8).2
                (increaseSN SN) (fib + 1) 0 stm fcs).1,
              (nextCF (increaseSN SN) (a :: l) 8).1 ::
                (sendCFLoop 8 false 0 1000 fuel (nextCF (increaseSN SN) (a :: l) 8).2
                  (increaseSN SN) (fib + 1) 0 stm fcs).2.1,
              (sendCFLoop 8 false 0 1000 fuel (nextCF (increaseSN SN) (a :: l) 8).2
                (increaseSN SN) (fib + 1) 0 stm fcs).2.2) := rfl
      rw [hstep, ih _ (increaseSN SN) (fib + 1) stm fcs hlen]
      rfl

/-- Facts about the short First-Frame header byte `0x10 | hi` for any
length nibble: its PCI is 1, its low nibble is the length nibble, and it
is recognised as a transport payload. -/
theorem ff_header_facts : ∀ h : Fin 16,
    (0x10 ||| h.val) >>> 4 = 1 ∧ (0x10 ||| h.val) &&& 0xF = h.val ∧
    (((0x10 ||| h.val) >>> 4 == 0x0) || ((0x10 ||| h.val) >>> 4 == 0x1) ||
      ((0x10 ||| h.val) >>> 4 == 0x2)) = true := by decide

/-- The transport round trip succeeds on every payload of 8 to 4095
bytes whose length is not a multiple of 256: exactly the lengths whose
short First Frame has a non-zero second byte, which the receiver parses
back correctly.  Together with the escape-form failure below this pins
the broken lengths down to the 256-multiples. -/
theorem tp_roundtrip_good_lengths (D : List Nat)
    (h8 : 8 ≤ D.length) (hmax : D.length ≤ 0xFFF) (hmod : D.length % 256 ≠ 0) :
    tpLoopback D = D := by
  have hhi_lt : (D.length >>> 8) &&& 0xF < 16 :=
    Nat.lt_succ_of_le Nat.and_le_right
  have hshift : D.length >>> 8 = D.length / 256 := by
    rw [Nat.shiftRight_eq_div_pow]
  have hhi_eq : (D.length >>> 8) &&& 0xF = D.length / 256 := by
    rw [hshift, show (0xF : Nat) = 2 ^ 4 - 1 from rfl,
      Nat.and_pow_two_sub_one_eq_mod]
    have : D.length / 256 < 16 := by omega
    omega
  have hB1 : 0xFF &&& D.length = D.length % 256 := by
    rw [Nat.and_comm, show (0xFF : Nat) = 2 ^ 8 - 1 from rfl,
      Nat.and_pow_two_sub_one_eq_mod]
  have hB1ne : 0xFF &&& D.length ≠ 0 := by rw [hB1]; exact hmod
  have hA : (0x10 ||| ((D.length >>> 8) &&& 0xF)) &&& 0xF = (D.length >>> 8) &&& 0xF :=
    (ff_header_facts ⟨_, hhi_lt⟩).2.1
  have hA1 : (0x10 ||| ((D.length >>> 8) &&& 0xF)) >>> 4 = 1 :=
    (ff_header_facts ⟨_, hhi_lt⟩).1
  have hA2 : (((0x10 ||| ((D.length >>> 8) &&& 0xF)) >>> 4 == 0x0) ||
      ((0x10 ||| ((D.length >>> 8) &&& 0xF)) >>> 4 == 0x1) ||
      ((0x10 ||| ((D.length >>> 8) &&& 0xF)) >>> 4 == 0x2)) = true :=
    (ff_header_facts ⟨_, hhi_lt⟩).2.2
  have hconv : convertFF D 8 =
      ((0x10 ||| ((D.length >>> 8) &&& 0xF)) :: (0xFF &&& D.length) :: D.take 6,
        D.drop 6) := by
    unfold convertFF
    rw [if_neg (by omega), if_pos (by omega)]
    unfold slice1stChunk
    show (((0x10 ||| ((D.length >>> 8) &&& 0xF)) :: (0xFF &&& D.length) :: D).take 8,
        ((0x10 ||| ((D.length >>> 8) &&& 0xF)) :: (0xFF &&& D.length) :: D).drop 8) = _
    rw [show (8 : Nat) = 6 + 1 + 1 from rfl, List.take_succ_cons, List.take_succ_cons,
      List.drop_succ_cons, List.drop_succ_cons]
  have hrem : D.drop 6 ≠ [] := by
    intro h
    have hl := List.length_drop 6 D
    rw [h] at hl
    simp at hl
    omega
  have hframes : (sessionSendCore 8 false 0 1000 D
        [[(0, [0x30, 0x00, 0x00, 0, 0, 0, 0, 0])]]).2.1
      = ((0x10 ||| ((D.length >>> 8) &&& 0xF)) :: (0xFF &&& D.length) :: D.take 6) ::
          cfFrames (D.drop 6).length 0 (D.drop 6) := by
    rw [sessionSendCore_ff 8 false 0 1000 D
      ((0x10 ||| ((D.length >>> 8) &&& 0xF)) :: (0xFF &&& D.length) :: D.take 6)
      (D.drop 6) [(0, [0x30, 0x00, 0x00, 0, 0, 0, 0, 0])] []
      { block_size := 0, st_min := 0, flow_status := 0 } hconv hrem (by decide)]
    show writeBusData false 0
        ((0x10 ||| ((D.length >>> 8) &&& 0xF)) :: (0xFF &&& D.length) :: D.take 6) ::
        (sendCFLoop 8 false 0 1000 (D.drop 6).length (D.drop 6) 0 0 0 0 []).2.1 = _
    rw [sendCFLoop_bs0 (D.drop 6).length (D.drop 6) 0 0 0 [] le_rfl]
    rfl
  have harith : (((0x10 ||| ((D.length >>> 8) &&& 0xF)) &&& 0xF) <<< 8) |||
      (0xFF &&& D.length) = D.length := by
    rw [hA, hhi_eq, hB1, Nat.shiftLeft_eq, Nat.mul_comm (D.length / 256) (2 ^ 8),
      ← Nat.mul_add_lt_is_or (Nat.mod_lt _ (by norm_num) : D.length % 256 < 2 ^ 8)
        (D.length / 256),
      show (2 : Nat) ^ 8 = 256 from by norm_num]
    omega
  have htotal : calculateLength
      ((0x10 ||| ((D.length >>> 8) &&& 0xF)) :: (0xFF &&& D.length) :: D.take 6)
      = (D.length, 2) := by
    unfold calculateLength
    rw [if_pos (by simpa using hB1ne)]
    have hfst : ((0x10 ||| ((D.length >>> 8) &&& 0xF)) :: (0xFF &&& D.length) ::
        D.take 6).getD 0 0 = 0x10 ||| ((D.length >>> 8) &&& 0xF) := rfl
    have hsnd : ((0x10 ||| ((D.length >>> 8) &&& 0xF)) :: (0xFF &&& D.length) ::
        D.take 6).getD 1 0 = 0xFF &&& D.length := rfl
    rw [hfst, hsnd, harith]
  have hexp : expectedFrames
      ((0x10 ||| ((D.length >>> 8) &&& 0xF)) :: (0xFF &&& D.length) :: D.take 6) 8
      = (ceilDivInt ((D.length : Int) - (D.take 6).length) 7, D.length, D.take 6) := by
    unfold expectedFrames
    rw [htotal]
    show (ceilDivInt ((D.length : Int) -
        (((0x10 ||| ((D.length >>> 8) &&& 0xF)) :: (0xFF &&& D.length) ::
          D.take 6).drop 2).length) 7, D.length,
        ((0x10 ||| ((D.length >>> 8) &&& 0xF)) :: (0xFF &&& D.length) ::
          D.take 6).drop 2) = _
    rfl
  have hpred : is_transport_payload
      ((0x10 ||| ((D.length >>> 8) &&& 0xF)) :: (0xFF &&& D.length) :: D.take 6) = true := by
    show (((0x10 ||| ((D.length >>> 8) &&& 0xF)) >>> 4 == 0x0) ||
      ((0x10 ||| ((D.length >>> 8) &&& 0xF)) >>> 4 == 0x1) ||
      ((0x10 ||| ((D.length >>> 8) &&& 0xF)) >>> 4 == 0x2)) = true
    exact hA2
  have hpci : pci_type
      ((0x10 ||| ((D.length >>> 8) &&& 0xF)) :: (0xFF &&& D.length) :: D.take 6) = 1 := by
    show (0x10 ||| ((D.length >>> 8) &&& 0xF)) >>> 4 = 1
    exact hA1
  unfold tpLoopback
  rw [hframes,
    sessionReceive_ff 8 {}
      ((0x10 ||| ((D.length >>> 8) &&& 0xF)) :: (0xFF &&& D.length) :: D.take 6)
      _ (cfFrames (D.drop 6).length 0 (D.drop 6))
      (ceilDivInt ((D.length : Int) - (D.take 6).length) 7) D.length (D.take 6)
      (by unfold popMatching; rw [if_pos hpred]) hpci hexp]
  obtain ⟨full, hfull, htake⟩ :=
    receiveCFLoop_cfFrames (D.drop 6).length (D.drop 6) (D.take 6) 0 D.length le_rfl
      (by rw [List.length_take]; omega)
      (by rw [List.length_take, List.length_drop]; omega)
  rw [hfull]
  show full.take D.length = D
  rw [htake, List.take_append_drop]
  exact List.take_length D

/-- Instance of the round trip at the good lengths: a 300-byte payload
of 0x07 bytes is reproduced exactly. -/
theorem tp_roundtrip_at_300 :
    tpLoopback (List.replicate 300 7) = List.replicate 300 7 :=
  tp_roundtrip_good_lengths (List.replicate 300 7) (by simp) (by simp) (by simp)

/-- C1.  The claimed round trip fails on the code.  For the 256-byte
payload the sender emits the short-form First Frame `[0x11, 0x00, …]`
(high length nibble 1, low length byte 0); the receiver distinguishes
the escape length form only by the second byte being zero, so it
misparses this frame, reads the total length out of payload bytes, and
returns the empty list instead of the payload.  A 20-byte payload
round-trips correctly through the same pipeline. -/
theorem C1_tp_roundtrip_code_eval :
    tpLoopback (List.replicate 256 0) = [] ∧
    ¬ List.replicate 256 0 = [] ∧
    (convertFF (List.replicate 256 0) 8).1 = [0x11, 0, 0, 0, 0, 0, 0, 0] ∧
    calculateLength [0x11, 0, 0, 0, 0, 0, 0, 0] = (0, 5) ∧
    tpLoopback (List.replicate 20 0x41) = List.replicate 20 0x41 := by
  refine ⟨?_, by simp, ?_, by decide, by decide⟩
  · unfold tpLoopback
    obtain ⟨cfs, hsend⟩ := send_256_zeros_head
    rw [hsend, receive_ff_0x11_zero cfs]
  · rw [convertFF_256_zeros]
